import Mathlib

/-!
# Grades registry (`Mamat_HW/ADT_C/grades.c`)

A shallow embedding of `grades.c` and of the linked-list library it is built on.

* C pointers that the code tests against `NULL` are `Option` values (`none` is `NULL`).
* `int` values are integers; the code only compares and prints them.
* `char *` strings are `String`s; `strcmp(a, b) == 0` is `a = b`, `malloc` + `strcpy` is a copy.
* Every function runs in `Prog`: it reads and updates a `World` (the outcomes of the coming
  allocation requests, the number of live heap blocks, the text written to standard output)
  and either returns or stops with a fault (a null pointer was read through).
* A function that mutates the registry in place returns the registry after the call next to
  its C return value.
* `float` values are the rationals they denote, every operation being rounded by `f32`.
-/

namespace GradesADT

/-! ## Execution model -/

/-- What a C function can see and change besides its arguments. -/
structure World where
  /-- Outcomes of the coming allocation requests, in order (`true`: the request succeeds);
  once the list is used up every request succeeds. -/
  allocs : List Bool
  /-- Number of heap blocks allocated and not yet released. -/
  live : Nat
  /-- Text written to standard output so far. -/
  out : String
deriving DecidableEq, Repr

/-- Result of running a function: it returned a value in a new world, or it read through a
null pointer (undefined behaviour in C). -/
inductive Res (α : Type) where
  | fault : Res α
  | ret (val : α) (w : World) : Res α
deriving DecidableEq, Repr

/-- A C function body. -/
def Prog (α : Type) : Type := World → Res α

/-- Sequencing of two steps; a fault ends the run. -/
def Prog.bind {α β : Type} (x : Prog α) (f : α → Prog β) : Prog β :=
  fun w => match x w with
    | .fault => .fault
    | .ret a w1 => f a w1

/-- A step that returns a value and leaves the world alone. -/
def Prog.pure {α : Type} (a : α) : Prog α := fun w => .ret a w

instance : Monad Prog where
  pure := Prog.pure
  bind := Prog.bind

/-- Reading through a null pointer. -/
def deref_null {α : Type} : Prog α := fun _ => .fault

/-- The call `malloc(n)`: `true` when a block was obtained, `false` for `NULL`. -/
def malloc : Prog Bool := fun w =>
  match w.allocs with
  | [] => .ret true { w with live := w.live + 1 }
  | b :: rest => .ret b { w with allocs := rest, live := if b then w.live + 1 else w.live }

/-- The call `free(p)`; `p` is `false` for `NULL`, on which `free` does nothing. -/
def free (p : Bool) : Prog Unit := fun w =>
  .ret () (if p then { w with live := w.live - 1 } else w)

/-- The call `printf` with its text already formatted. -/
def printf (s : String) : Prog Unit := fun w => .ret () { w with out := w.out ++ s }

/-! ## Constants and records -/

/-- The macro `MAX_GRADE`. -/
def MAX_GRADE : Int := 100
/-- The macro `ERROR`. -/
def ERROR : Int := 1
/-- The macro `FAIL`. -/
def FAIL : Int := -1

/-- The record `struct course`. -/
structure course where
  course_name : String
  grade : Int
deriving DecidableEq, Repr

/-- The record `struct student`; `student_courses` is a `struct list *`. -/
structure student where
  name : String
  id : Int
  student_courses : Option (List course)
deriving DecidableEq, Repr

/-- The record `struct grades`; `students_list` is a `struct list *`. -/
structure grades where
  students_list : Option (List student)
deriving DecidableEq, Repr

/-! ## The linked-list library (`linked-list.h`) -/

/-- Modelled from the spec: the cursor of the generic container (`struct iterator` of
`linked-list.h`, which is not among the sources). It stands on one stored element; `idx`
is the position of that element in its container and `after` the elements behind it. The
exhausted cursor is the `NULL` the code tests for. -/
structure iterator (α : Type) where
  idx : Nat
  elem : α
  after : List α
deriving DecidableEq, Repr

/-- Modelled from the spec: `list_init` of `linked-list.h` (spec 4.1, Create): a new empty
container, or `NULL` when backing storage cannot be obtained. The two callbacks are fixed
per container in the code (`clone_student`/`destroy_student` for the students,
`clone_course`/`course_destroy` for a student's courses); the model passes them to the
operations that use them. -/
def list_init {α : Type} : Prog (Option (List α)) := do
  let storage ← malloc
  if storage = false then pure none else pure (some [])

/-- Modelled from the spec: `list_size` of `linked-list.h` (spec 4.1, Size): the current
element count. The spec gives it no meaning on a null container. -/
def list_size {α : Type} : Option (List α) → Prog Nat
  | none => deref_null
  | some l => pure l.length

/-- Modelled from the spec: `list_begin` of `linked-list.h` (spec 4.1, Begin): a cursor on
the first element in insertion order; on an empty container there is no element to stand
on and the cursor is exhausted. The spec gives it no meaning on a null container. -/
def list_begin {α : Type} : Option (List α) → Prog (Option (iterator α))
  | none => deref_null
  | some [] => pure none
  | some (x :: rest) => pure (some { idx := 0, elem := x, after := rest })

/-- Modelled from the spec: `list_next` of `linked-list.h` (spec 4.1, Advance): the cursor
on the following element; advancing past the last element yields the exhausted cursor.
The spec gives it no meaning on an exhausted cursor. -/
def list_next {α : Type} : Option (iterator α) → Prog (Option (iterator α))
  | none => deref_null
  | some it =>
    match it.after with
    | [] => pure none
    | y :: rest => pure (some { idx := it.idx + 1, elem := y, after := rest })

/-- Modelled from the spec: `list_get` of `linked-list.h` (spec 4.1, Get): the stored
element under the cursor; an exhausted cursor cannot be dereferenced. -/
def list_get {α : Type} : Option (iterator α) → Prog α
  | none => deref_null
  | some it => pure it.elem

/-- Modelled from the spec: `list_push_back` of `linked-list.h` (spec 4.1, Append): calls
the clone callback on the element; when the callback fails the container is unchanged and
the call fails, otherwise the copy is linked at the end. Returns the C result (0 on
success) and the container after the call. The spec gives it no meaning on a null
container. -/
def list_push_back {α : Type} (clone : α → Prog (Int × Option α)) :
    Option (List α) → α → Prog (Int × Option (List α))
  | none, _ => deref_null
  | some l, element => do
    let (rc, output) ← clone element
    if rc ≠ 0 then pure (1, some l)
    else
      match output with
      | none => deref_null
      | some copy => pure (0, some (l ++ [copy]))

/-- Releases the elements of a container in insertion order with the destroy callback. -/
def destroy_elements {α : Type} (destroy : α → Prog Unit) : List α → Prog Unit
  | [] => pure ()
  | x :: rest => do
    destroy x
    destroy_elements destroy rest

/-- Modelled from the spec: `list_destroy` of `linked-list.h` (spec 4.1, Destroy):
releases every element with the destroy callback, then the container's own storage; does
nothing on a null container. -/
def list_destroy {α : Type} (destroy : α → Prog Unit) : Option (List α) → Prog Unit
  | none => pure ()
  | some l => do
    destroy_elements destroy l
    free true

/-! ## Single-precision arithmetic -/

/-- Rounding of a rational to the nearest integer, a tie going to the even neighbour. -/
def round_even (q : ℚ) : ℤ :=
  if q - ⌊q⌋ < 1 / 2 then ⌊q⌋
  else if 1 / 2 < q - ⌊q⌋ then ⌊q⌋ + 1
  else if ⌊q⌋ % 2 = 0 then ⌊q⌋ else ⌊q⌋ + 1

/-- Conversion to `float` (IEEE 754 binary32, round to nearest, ties to even) of a value in
the normal range: a 24-bit significand scaled by the power of two of the value's binade.
Values of magnitude 2^128 and more, or below 2^-126, are out of the model's range; with
32-bit grades and a `size_t` course count `grades_calc_avg` cannot produce them. -/
def f32 (q : ℚ) : ℚ :=
  if q = 0 then 0
  else (round_even (q / (2 : ℚ) ^ (Int.log 2 |q| - 23)) : ℚ) * (2 : ℚ) ^ (Int.log 2 |q| - 23)

/-! ## `grades.c` -/

/-- The function `list_find_id`, its `for` loop: `n` iterations are left and the cursor is
on `current_student`. -/
def list_find_id_loop (id : Int) :
    Nat → Option (iterator student) → Prog (Option (iterator student))
  | 0, _ => pure none
  | n + 1, current_student => do
    let student_data ← list_get current_student
    if student_data.id = id then pure current_student
    else do
      let next ← list_next current_student
      list_find_id_loop id n next

/-- The function `list_find_id`: the cursor on the first student with the given id, or
`NULL`. -/
def list_find_id (students_list : Option (List student)) (id : Int) :
    Prog (Option (iterator student)) := do
  let current_student ← list_begin students_list
  let list_len ← list_size students_list
  list_find_id_loop id list_len current_student

/-- The function `list_find_course`, its `for` loop. -/
def list_find_course_loop (name : String) :
    Nat → Option (iterator course) → Prog (Option (iterator course))
  | 0, _ => pure none
  | n + 1, current_course => do
    let course_data ← list_get current_course
    if course_data.course_name = name then pure current_course
    else do
      let next ← list_next current_course
      list_find_course_loop name n next

/-- The function `list_find_course`: the cursor on the first course with the given name,
or `NULL`. -/
def list_find_course (student_courses : Option (List course)) (name : String) :
    Prog (Option (iterator course)) := do
  let current_course ← list_begin student_courses
  let list_len ← list_size student_courses
  list_find_course_loop name list_len current_course

/-- The function `clone_course`: the C result and `*output`. -/
def clone_course (element : course) : Prog (Int × Option course) := do
  let new_course ← malloc
  if new_course = false then do
    free new_course
    pure (ERROR, none)
  else do
    let course_name ← malloc
    if course_name = false then do
      free course_name
      pure (ERROR, none)
    else
      pure (0, some { course_name := element.course_name, grade := element.grade })

/-- The function `course_destroy`. -/
def course_destroy (_rm_course : course) : Prog Unit := do
  free true
  free true

/-- The function `clone_student`: the C result and `*output`. The copy gets a course
container of its own from `list_init`, whose result is stored unchecked. -/
def clone_student (element : student) : Prog (Int × Option student) := do
  let new_student ← malloc
  if new_student = false then do
    free new_student
    pure (ERROR, none)
  else do
    let name ← malloc
    if name = false then do
      free name
      pure (ERROR, none)
    else do
      let student_courses ← list_init
      pure (0, some { name := element.name, id := element.id,
                      student_courses := student_courses })

/-- The function `destroy_student`. -/
def destroy_student (rm_student : student) : Prog Unit := do
  list_destroy course_destroy rm_student.student_courses
  free true
  free true

/-- The function `grades_init`. -/
def grades_init : Prog (Option grades) := do
  let new_grades ← malloc
  if new_grades = false then do
    free new_grades
    pure none
  else do
    let students_list ← list_init (α := student)
    if students_list = none then do
      free new_grades
      pure none
    else
      pure (some { students_list := students_list })

/-- The function `grades_destroy`. -/
def grades_destroy : Option grades → Prog Unit
  | none => pure ()
  | some g => do
    list_destroy destroy_student g.students_list
    free true

/-- The function `grades_add_student`: the C result and the registry after the call. -/
def grades_add_student (g : Option grades) (name : String) (id : Int) :
    Prog (Int × Option grades) :=
  match g with
  | none => pure (ERROR, none)
  | some gr => do
    let found ← list_find_id gr.students_list id
    if found ≠ none then pure (ERROR, g)
    else do
      let new_student ← malloc
      if new_student = false then do
        free new_student
        pure (ERROR, g)
      else do
        let new_name ← malloc
        if new_name = false then do
          free new_name
          free new_student
          pure (ERROR, g)
        else do
          let student_courses ← list_init (α := course)
          if student_courses = none then do
            free new_name
            free new_student
            pure (ERROR, g)
          else do
            let record : student :=
              { name := name, id := id, student_courses := student_courses }
            let (rc, students_list) ← list_push_back clone_student gr.students_list record
            if rc ≠ 0 then do
              destroy_student record
              pure (ERROR, some { students_list := students_list })
            else do
              destroy_student record
              pure (0, some { students_list := students_list })

/-- The function `grades_add_grade`: the C result and the registry after the call. The
course is appended through `student_data`, the view of the stored student under the
cursor, so the registry afterwards holds that student with the container after the
push. -/
def grades_add_grade (g : Option grades) (name : String) (id : Int) (grade : Int) :
    Prog (Int × Option grades) :=
  match g with
  | none => pure (ERROR, none)
  | some gr =>
    if grade < 0 ∨ grade > MAX_GRADE then pure (ERROR, g)
    else do
      let current_student ← list_find_id gr.students_list id
      match current_student with
      | none => pure (ERROR, g)
      | some it => do
        let student_data ← list_get (some it)
        let dup ← list_find_course student_data.student_courses name
        if dup ≠ none then pure (ERROR, g)
        else do
          let new_course ← malloc
          if new_course = false then do
            free new_course
            pure (ERROR, g)
          else do
            let course_name ← malloc
            if course_name = false then do
              free course_name
              free new_course
              pure (ERROR, g)
            else do
              let record : course := { course_name := name, grade := grade }
              let (rc, student_courses) ←
                list_push_back clone_course student_data.student_courses record
              let stored : student :=
                { name := student_data.name, id := student_data.id,
                  student_courses := student_courses }
              let after : Option grades :=
                some (grades.mk (Option.map (fun l => List.set l it.idx stored)
                  gr.students_list))
              if rc ≠ 0 then do
                course_destroy record
                pure (ERROR, after)
              else do
                course_destroy record
                pure (0, after)

/-- The function `grades_calc_avg`, its `for` loop: `n` iterations are left, `avg` is the
`float` accumulator; `avg += grade` converts the grade to `float` and rounds the sum. -/
def grades_calc_avg_loop : Nat → Option (iterator course) → ℚ → Prog ℚ
  | 0, _, avg => pure avg
  | n + 1, course_data, avg => do
    let current_course ← list_get course_data
    let next ← list_next course_data
    grades_calc_avg_loop n next (f32 (avg + f32 current_course.grade))

/-- The function `grades_calc_avg`: the returned `float` and the value left in `*out`.
The registry is read through before it is compared with `NULL`. -/
def grades_calc_avg (g : Option grades) (id : Int) : Prog (ℚ × Option String) :=
  match g with
  | none => deref_null
  | some gr => do
    let student_data ← list_find_id gr.students_list id
    if student_data = none then pure (f32 FAIL, none)
    else do
      let calc_student ← list_get student_data
      let student_name ← malloc
      if student_name = false then do
        free student_name
        pure (f32 FAIL, none)
      else do
        let out := some calc_student.name
        let course_data ← list_begin calc_student.student_courses
        let list_len ← list_size calc_student.student_courses
        if course_data = none then pure (0, out)
        else do
          let avg ← grades_calc_avg_loop list_len course_data 0
          pure (f32 (avg / f32 list_len), out)

/-- The function `grades_print_student`, its `for` loop: `n` iterations are left, `i` is
the loop counter. -/
def grades_print_student_loop (list_len : Nat) :
    Nat → Nat → Option (iterator course) → Prog Unit
  | 0, _, _ => pure ()
  | n + 1, i, course_data => do
    let current_course ← list_get course_data
    printf (" " ++ current_course.course_name ++ " " ++ toString current_course.grade)
    if i ≠ list_len - 1 then printf "," else pure ()
    let next ← list_next course_data
    grades_print_student_loop list_len n (i + 1) next

/-- The function `grades_print_student`; what it prints is appended to the world's `out`.
The registry is read through before it is compared with `NULL`. -/
def grades_print_student (g : Option grades) (id : Int) : Prog Int :=
  match g with
  | none => deref_null
  | some gr => do
    let student_data ← list_find_id gr.students_list id
    if student_data = none then pure ERROR
    else do
      let print_student ← list_get student_data
      printf (print_student.name ++ " " ++ toString print_student.id ++ ":")
      if print_student.student_courses = none then do
        printf "\n"
        pure 0
      else do
        let course_data ← list_begin print_student.student_courses
        let list_len ← list_size print_student.student_courses
        grades_print_student_loop list_len list_len 0 course_data
        printf "\n"
        pure 0

/-- The function `grades_print_all`, its `for` loop. -/
def grades_print_all_loop (g : Option grades) :
    Nat → Option (iterator student) → Prog Unit
  | 0, _ => pure ()
  | n + 1, current_student => do
    let student_data ← list_get current_student
    let _ ← grades_print_student g student_data.id
    let next ← list_next current_student
    grades_print_all_loop g n next

/-- The function `grades_print_all`. The registry is read through before it is compared
with `NULL`. -/
def grades_print_all (g : Option grades) : Prog Int :=
  match g with
  | none => deref_null
  | some gr => do
    let current_student ← list_begin gr.students_list
    let list_len ← list_size gr.students_list
    grades_print_all_loop g list_len current_student
    pure 0

/-! ## Notions used in the statements -/

/-- A registry as `grades_init` creates it, its container holding the students `l`. -/
def registry (l : List student) : Option grades := some { students_list := some l }

/-- Every allocation request still to come in this world succeeds. -/
def allocs_succeed (w : World) : Prop := ∀ b ∈ w.allocs, b = true

instance (w : World) : Decidable (allocs_succeed w) := by
  unfold allocs_succeed; infer_instance

/-- The cursor on the first element of `l`, which sits at position `k` of its container. -/
def cursor_at {α : Type} (k : Nat) : List α → Option (iterator α)
  | [] => none
  | x :: rest => some { idx := k, elem := x, after := rest }

/-- The cursor on the first element of `l` that satisfies `p`, where `l` starts at
position `k` of its container. -/
def first_at {α : Type} (p : α → Prop) [DecidablePred p] : Nat → List α → Option (iterator α)
  | _, [] => none
  | k, x :: rest => if p x then some { idx := k, elem := x, after := rest }
      else first_at p (k + 1) rest

/-- The text of one course in a student's line: a blank, the course name, a blank and the
grade in decimal. -/
def course_text (c : course) : String :=
  " " ++ c.course_name ++ " " ++ toString c.grade

/-- The line of a student as the rendering contract words it: the name, a blank, the id in
decimal and a colon, then the course texts in order with a comma between consecutive ones,
then a newline. -/
def student_line (name : String) (id : Int) (cs : List course) : String :=
  name ++ " " ++ toString id ++ ":" ++ ",".intercalate (cs.map course_text) ++ "\n"

/-- The registries that calls of the interface produce: `grades_init` gives the first one
(or `NULL`), and every call of `grades_add_student` or `grades_add_grade` that returns, in
any world and with any result, gives the next. -/
inductive reachable : Option grades → Prop
  | init (w w1 : World) (g : Option grades) :
      grades_init w = .ret g w1 → reachable g
  | add_student (g g1 : Option grades) (name : String) (id : Int) (rc : Int) (w w1 : World) :
      reachable g → grades_add_student g name id w = .ret (rc, g1) w1 → reachable g1
  | add_grade (g g1 : Option grades) (name : String) (id : Int) (grade : Int) (rc : Int)
      (w w1 : World) :
      reachable g → grades_add_grade g name id grade w = .ret (rc, g1) w1 → reachable g1

/-- A course list with `n` records, named with 0, 1, ..., `n - 1` letters `c`, each with
grade 100. -/
def many_courses : Nat → List course
  | 0 => []
  | n + 1 => many_courses n ++ [course.mk (String.mk (List.replicate n 'c')) 100]

/-- One round of the loop of `grades_calc_avg` on a course with grade 100:
`avg += 100`. -/
def add_hundred (avg : ℚ) : ℚ := f32 (avg + f32 ((100 : Int) : ℚ))

/-! ## Running programs and the cursor loops -/

theorem run_bind {α β : Type} (x : Prog α) (f : α → Prog β) (w : World) :
    (x >>= f) w = match x w with
      | .fault => .fault
      | .ret a w1 => f a w1 := rfl

theorem run_pure {α : Type} (a : α) (w : World) : (pure a : Prog α) w = .ret a w := rfl

theorem malloc_of_succeed (a : List Bool) (n : Nat) (o : String) (h : ∀ b ∈ a, b = true) :
    malloc { allocs := a, live := n, out := o }
      = .ret true { allocs := a.tail, live := n + 1, out := o } := by
  cases a with
  | nil => rfl
  | cons b rest =>
    have hb : b = true := h b (by simp)
    subst hb
    rfl

theorem succeed_tail (a : List Bool) (h : ∀ b ∈ a, b = true) : ∀ b ∈ a.tail, b = true :=
  fun b hb => h b (List.mem_of_mem_tail hb)

theorem free_eq (p : Bool) (a : List Bool) (n : Nat) (o : String) :
    free p { allocs := a, live := n, out := o }
      = .ret () { allocs := a, live := if p = true then n - 1 else n, out := o } := by
  cases p <;> rfl

theorem cursor_at_cons {α : Type} (k : Nat) (x : α) (rest : List α) :
    cursor_at k (x :: rest) = some { idx := k, elem := x, after := rest } := rfl

theorem list_begin_some {α : Type} (l : List α) (w : World) :
    list_begin (some l) w = .ret (cursor_at 0 l) w := by
  cases l <;> rfl

theorem list_next_some {α : Type} (k : Nat) (x : α) (rest : List α) (w : World) :
    list_next (some { idx := k, elem := x, after := rest }) w
      = .ret (cursor_at (k + 1) rest) w := by
  cases rest <;> rfl

theorem first_at_eq_none {α : Type} (p : α → Prop) [DecidablePred p] (k : Nat) (l : List α) :
    first_at p k l = none ↔ ∀ x ∈ l, ¬ p x := by
  induction l generalizing k with
  | nil => simp [first_at]
  | cons x rest ih =>
    by_cases h : p x <;> simp [first_at, h, ih]

theorem first_at_append {α : Type} (p : α → Prop) [DecidablePred p] (k : Nat)
    (pre : List α) (x : α) (post : List α) (hpre : ∀ y ∈ pre, ¬ p y) (hx : p x) :
    first_at p k (pre ++ x :: post)
      = some { idx := k + pre.length, elem := x, after := post } := by
  induction pre generalizing k with
  | nil => simp [first_at, hx]
  | cons y rest ih =>
    have hy : ¬ p y := hpre y (by simp)
    have hrest : ∀ z ∈ rest, ¬ p z := fun z hz => hpre z (by simp [hz])
    simp [first_at, hy, ih (k + 1) hrest]
    omega

theorem first_at_some {α : Type} (p : α → Prop) [DecidablePred p] (k : Nat) (l : List α)
    (it : iterator α) (h : first_at p k l = some it) :
    ∃ pre, l = pre ++ it.elem :: it.after ∧ it.idx = k + pre.length ∧ p it.elem
      ∧ ∀ y ∈ pre, ¬ p y := by
  induction l generalizing k with
  | nil => simp [first_at] at h
  | cons x rest ih =>
    by_cases hx : p x
    · simp [first_at, hx] at h
      subst h
      exact ⟨[], by simp, by simp, hx, by simp⟩
    · simp [first_at, hx] at h
      obtain ⟨pre, h1, h2, h3, h4⟩ := ih (k + 1) h
      refine ⟨x :: pre, by simp [h1], by simp [h2]; omega, h3, ?_⟩
      intro y hy
      rcases List.mem_cons.mp hy with rfl | hy
      · exact hx
      · exact h4 y hy

theorem list_find_id_loop_eq (id : Int) (l : List student) (k : Nat) (w : World) :
    list_find_id_loop id l.length (cursor_at k l) w
      = .ret (first_at (fun s => s.id = id) k l) w := by
  induction l generalizing k with
  | nil => rfl
  | cons x rest ih =>
    by_cases h : x.id = id
    · simp [list_find_id_loop, cursor_at_cons, first_at, run_bind, list_get, run_pure, h]
    · simp [list_find_id_loop, cursor_at_cons, first_at, run_bind, list_get, run_pure, h,
        list_next_some, ih]

theorem list_find_id_eq (id : Int) (l : List student) (w : World) :
    list_find_id (some l) id w = .ret (first_at (fun s => s.id = id) 0 l) w := by
  simp [list_find_id, run_bind, list_begin_some, list_size, run_pure, list_find_id_loop_eq]

theorem list_find_course_loop_eq (name : String) (l : List course) (k : Nat) (w : World) :
    list_find_course_loop name l.length (cursor_at k l) w
      = .ret (first_at (fun c => c.course_name = name) k l) w := by
  induction l generalizing k with
  | nil => rfl
  | cons x rest ih =>
    by_cases h : x.course_name = name
    · simp [list_find_course_loop, cursor_at_cons, first_at, run_bind, list_get, run_pure, h]
    · simp [list_find_course_loop, cursor_at_cons, first_at, run_bind, list_get, run_pure, h,
        list_next_some, ih]

theorem list_find_course_eq (name : String) (l : List course) (w : World) :
    list_find_course (some l) name w
      = .ret (first_at (fun c => c.course_name = name) 0 l) w := by
  simp [list_find_course, run_bind, list_begin_some, list_size, run_pure,
    list_find_course_loop_eq]

/-! ## `grades_add_student` -/

/-- C1. When some student of the registry already has the id, `grades_add_student` returns
the non-zero `ERROR` and the registry (hence its student count) and the world are as
before the call. -/
theorem grades_add_student_duplicate_id (l : List student) (name : String) (id : Int)
    (w : World) (h : ∃ s ∈ l, s.id = id) :
    grades_add_student (registry l) name id w = .ret (ERROR, registry l) w ∧ ERROR ≠ 0 := by
  have hne : first_at (fun s : student => s.id = id) 0 l ≠ none := by
    intro hnone
    obtain ⟨s, hs, hid⟩ := h
    exact (first_at_eq_none _ 0 l).mp hnone s hs hid
  refine ⟨?_, by decide⟩
  simp [grades_add_student, registry, run_bind, list_find_id_eq, hne, run_pure]

theorem grades_add_student_duplicate_id_witness :
    (∃ s ∈ [student.mk "A" 1 (some [])], s.id = 1) ∧
    (grades_add_student (registry [student.mk "A" 1 (some [])]) "B" 1
        { allocs := [], live := 0, out := "" }
      = .ret (ERROR, registry [student.mk "A" 1 (some [])])
          { allocs := [], live := 0, out := "" } ∧ ERROR ≠ 0) :=
  ⟨by decide, grades_add_student_duplicate_id _ "B" 1 _ (by decide)⟩

theorem list_init_of_succeed {α : Type} (a : List Bool) (n : Nat) (o : String)
    (h : ∀ b ∈ a, b = true) :
    (list_init : Prog (Option (List α))) { allocs := a, live := n, out := o }
      = .ret (some []) { allocs := a.tail, live := n + 1, out := o } := by
  simp [list_init, run_bind, malloc_of_succeed a n o h, run_pure]

theorem clone_student_of_succeed (s : student) (a : List Bool) (n : Nat) (o : String)
    (h : ∀ b ∈ a, b = true) :
    clone_student s { allocs := a, live := n, out := o }
      = .ret (0, some { name := s.name, id := s.id, student_courses := some [] })
          { allocs := a.tail.tail.tail, live := n + 3, out := o } := by
  have h1 := succeed_tail a h
  have h2 := succeed_tail _ h1
  simp [clone_student, run_bind, malloc_of_succeed a n o h, malloc_of_succeed _ (n + 1) o h1,
    list_init_of_succeed _ (n + 1 + 1) o h2, run_pure]

theorem destroy_fresh_student (name : String) (id : Int) (a : List Bool) (n : Nat)
    (o : String) :
    destroy_student { name := name, id := id, student_courses := some [] }
        { allocs := a, live := n, out := o }
      = .ret () { allocs := a, live := n - 1 - 1 - 1, out := o } := by
  simp [destroy_student, list_destroy, destroy_elements, run_bind, run_pure, free_eq]

/-- C2. When no student of the registry has the id and every allocation succeeds,
`grades_add_student` returns 0 and the registry afterwards holds the previous students,
unchanged and in the same order, followed by one new student with the given name, the
given id and an empty course list. -/
theorem grades_add_student_appends (l : List student) (name : String) (id : Int)
    (w : World) (hid : ∀ s ∈ l, s.id ≠ id) (hal : allocs_succeed w) :
    grades_add_student (registry l) name id w
      = .ret (0, registry (l ++ [{ name := name, id := id, student_courses := some [] }]))
          { allocs := w.allocs.drop 6, live := w.live + 3, out := w.out } := by
  obtain ⟨a, n, o⟩ := w
  have h0 : ∀ b ∈ a, b = true := hal
  have h1 := succeed_tail a h0
  have h2 := succeed_tail _ h1
  have h3 := succeed_tail _ h2
  have hnone : first_at (fun s : student => s.id = id) 0 l = none :=
    (first_at_eq_none _ 0 l).mpr hid
  simp [grades_add_student, registry, run_bind, list_find_id_eq, hnone, run_pure,
    malloc_of_succeed a n o h0, malloc_of_succeed _ (n + 1) o h1,
    list_init_of_succeed _ (n + 1 + 1) o h2, list_push_back,
    clone_student_of_succeed _ _ (n + 1 + 1 + 1) o h3, destroy_fresh_student]
  simp [← List.drop_one, List.drop_drop]

theorem grades_add_student_appends_witness :
    (∀ s ∈ [student.mk "A" 1 (some [])], s.id ≠ 2) ∧
    allocs_succeed { allocs := [true], live := 0, out := "" } ∧
    grades_add_student (registry [student.mk "A" 1 (some [])]) "B" 2
        { allocs := [true], live := 0, out := "" }
      = .ret (0, registry ([student.mk "A" 1 (some [])] ++ [student.mk "B" 2 (some [])]))
          { allocs := List.drop 6 [true], live := 0 + 3, out := "" } :=
  ⟨by decide, by decide,
    grades_add_student_appends _ "B" 2 { allocs := [true], live := 0, out := "" }
      (by decide) (by decide)⟩

/-! ## `grades_add_grade` -/

theorem set_at_length {α : Type} (pre : List α) (x y : α) (post : List α) :
    (pre ++ x :: post).set pre.length y = pre ++ y :: post := by
  induction pre with
  | nil => rfl
  | cons z rest ih => simp [ih]

theorem course_destroy_eq (c : course) (a : List Bool) (n : Nat) (o : String) :
    course_destroy c { allocs := a, live := n, out := o }
      = .ret () { allocs := a, live := n - 1 - 1, out := o } := by
  simp [course_destroy, run_bind, free_eq]

theorem malloc_cases (a : List Bool) (n : Nat) (o : String) :
    ∃ b : Bool, malloc { allocs := a, live := n, out := o }
      = .ret b { allocs := a.tail, live := if b = true then n + 1 else n, out := o } := by
  cases a with
  | nil => exact ⟨true, rfl⟩
  | cons b rest => exact ⟨b, by cases b <;> rfl⟩

/-- The three ways a call of `grades_add_grade` on a valid registry can end: it fails and
the registry is as before; it stops with a fault; it succeeds, and then the first student
with the id had a course container without a course of that name, which now ends with the
new course record. -/
theorem grades_add_grade_cases (l : List student) (name : String) (id : Int) (grade : Int)
    (w : World) :
    (∃ w1, grades_add_grade (registry l) name id grade w = .ret (ERROR, registry l) w1)
    ∨ grades_add_grade (registry l) name id grade w = .fault
    ∨ (∃ pre s post cs w1, l = pre ++ s :: post ∧ (∀ t ∈ pre, t.id ≠ id) ∧ s.id = id
        ∧ s.student_courses = some cs ∧ (∀ c ∈ cs, c.course_name ≠ name)
        ∧ 0 ≤ grade ∧ grade ≤ 100
        ∧ grades_add_grade (registry l) name id grade w
          = .ret (0, registry (pre ++ student.mk s.name s.id
              (some (cs ++ [{ course_name := name, grade := grade }])) :: post)) w1) := by
  obtain ⟨a, n, o⟩ := w
  by_cases hgr : grade < 0 ∨ grade > MAX_GRADE
  · exact Or.inl ⟨⟨a, n, o⟩, by simp [grades_add_grade, registry, hgr, run_pure]⟩
  cases hf : first_at (fun s : student => s.id = id) 0 l with
  | none =>
    exact Or.inl ⟨⟨a, n, o⟩, by simp [grades_add_grade, registry, hgr, run_bind, list_find_id_eq, hf,
      run_pure]⟩
  | some it =>
    obtain ⟨pre, hl, hidx, hid, hpre⟩ := first_at_some _ 0 l it hf
    cases hc : it.elem.student_courses with
    | none =>
      exact Or.inr (Or.inl (by
        simp [grades_add_grade, registry, hgr, run_bind, list_find_id_eq, hf, run_pure,
          list_get, hc, list_find_course, list_begin, deref_null]))
    | some cs =>
      cases hd : first_at (fun c : course => c.course_name = name) 0 cs with
      | some itc =>
        exact Or.inl ⟨⟨a, n, o⟩, by
          simp [grades_add_grade, registry, hgr, run_bind, list_find_id_eq, hf, run_pure,
            list_get, hc, list_find_course_eq, hd]⟩
      | none =>
        have hnodup := (first_at_eq_none _ 0 cs).mp hd
        have hset : l.set it.idx it.elem = l := by
          rw [hl, hidx, Nat.zero_add, set_at_length]
        have heta : student.mk it.elem.name it.elem.id (some cs) = it.elem := by
          rw [← hc]
        obtain ⟨b1, hm1⟩ := malloc_cases a n o
        cases b1 with
        | false =>
          exact Or.inl ⟨⟨a.tail, n, o⟩, by
            simp [grades_add_grade, registry, hgr, run_bind, list_find_id_eq, hf, run_pure,
              list_get, hc, list_find_course_eq, hd, hm1, free_eq]⟩
        | true =>
          obtain ⟨b2, hm2⟩ := malloc_cases a.tail (n + 1) o
          cases b2 with
          | false =>
            exact Or.inl ⟨⟨a.tail.tail, n + 1 - 1, o⟩, by
              simp [grades_add_grade, registry, hgr, run_bind, list_find_id_eq, hf, run_pure,
                list_get, hc, list_find_course_eq, hd, hm1, hm2, free_eq]⟩
          | true =>
            obtain ⟨b3, hm3⟩ := malloc_cases a.tail.tail (n + 1 + 1) o
            cases b3 with
            | false =>
              exact Or.inl ⟨⟨a.tail.tail.tail, n + 1 + 1 - 1 - 1, o⟩, by
                simp [grades_add_grade, registry, hgr, run_bind, list_find_id_eq, hf,
                  run_pure, list_get, hc, list_find_course_eq, hd, hm1, hm2, hm3, free_eq,
                  list_push_back, clone_course, course_destroy_eq, ERROR, heta, hset]⟩
            | true =>
              obtain ⟨b4, hm4⟩ := malloc_cases a.tail.tail.tail (n + 1 + 1 + 1) o
              cases b4 with
              | false =>
                exact Or.inl ⟨⟨a.tail.tail.tail.tail, n + 1 + 1 + 1 - 1 - 1, o⟩, by
                  simp [grades_add_grade, registry, hgr, run_bind, list_find_id_eq, hf,
                    run_pure, list_get, hc, list_find_course_eq, hd, hm1, hm2, hm3, hm4,
                    free_eq, list_push_back, clone_course, course_destroy_eq, ERROR, heta,
                    hset]⟩
              | true =>
                refine Or.inr (Or.inr ⟨pre, it.elem, it.after, cs,
                  ⟨a.tail.tail.tail.tail, n + 1 + 1 + 1 + 1 - 1 - 1, o⟩, hl, hpre, hid, hc,
                  hnodup, ?_, ?_, ?_⟩)
                · simp only [not_or, not_lt] at hgr
                  exact hgr.1
                · simp only [not_or, not_lt, MAX_GRADE] at hgr
                  exact hgr.2
                · simp [grades_add_grade, registry, hgr, run_bind, list_find_id_eq, hf,
                    run_pure, list_get, hc, list_find_course_eq, hd, hm1, hm2, hm3, hm4,
                    free_eq, list_push_back, clone_course, course_destroy_eq]
                  rw [hidx, Nat.zero_add]
                  conv_lhs => rw [hl]
                  rw [set_at_length]

theorem clone_course_of_succeed (c : course) (a : List Bool) (n : Nat) (o : String)
    (h : ∀ b ∈ a, b = true) :
    clone_course c { allocs := a, live := n, out := o }
      = .ret (0, some { course_name := c.course_name, grade := c.grade })
          { allocs := a.tail.tail, live := n + 2, out := o } := by
  have h1 := succeed_tail a h
  simp [clone_course, run_bind, malloc_of_succeed a n o h, malloc_of_succeed _ (n + 1) o h1,
    run_pure]

theorem grades_add_grade_of_duplicate (pre : List student) (s : student)
    (post : List student) (cs : List course) (name : String) (id : Int) (grade : Int)
    (w : World) (hpre : ∀ t ∈ pre, t.id ≠ id) (hid : s.id = id)
    (hc : s.student_courses = some cs) (hdup : ∃ c ∈ cs, c.course_name = name) :
    grades_add_grade (registry (pre ++ s :: post)) name id grade w
      = .ret (ERROR, registry (pre ++ s :: post)) w := by
  by_cases hgr : grade < 0 ∨ grade > MAX_GRADE
  · simp [grades_add_grade, registry, hgr, run_pure]
  have hf := first_at_append (fun t : student => t.id = id) 0 pre s post hpre hid
  have hne : first_at (fun c : course => c.course_name = name) 0 cs ≠ none := by
    intro hnone
    obtain ⟨c, hcmem, hcn⟩ := hdup
    exact (first_at_eq_none _ 0 cs).mp hnone c hcmem hcn
  simp [grades_add_grade, registry, hgr, run_bind, list_find_id_eq, hf, run_pure,
    list_get, hc, list_find_course_eq, hne]

theorem grades_add_grade_of_succeed (pre : List student) (s : student)
    (post : List student) (cs : List course) (name : String) (id : Int) (grade : Int)
    (w : World) (hpre : ∀ t ∈ pre, t.id ≠ id) (hid : s.id = id)
    (hc : s.student_courses = some cs) (hnew : ∀ c ∈ cs, c.course_name ≠ name)
    (hlo : 0 ≤ grade) (hhi : grade ≤ 100) (hal : allocs_succeed w) :
    grades_add_grade (registry (pre ++ s :: post)) name id grade w
      = .ret (0, registry (pre ++ student.mk s.name s.id
            (some (cs ++ [{ course_name := name, grade := grade }])) :: post))
          { allocs := w.allocs.drop 4, live := w.live + 2, out := w.out } := by
  obtain ⟨a, n, o⟩ := w
  have h0 : ∀ b ∈ a, b = true := hal
  have h1 := succeed_tail a h0
  have h2 := succeed_tail _ h1
  have hgr : ¬ (grade < 0 ∨ grade > MAX_GRADE) := by
    simp only [MAX_GRADE, not_or, not_lt]
    exact ⟨hlo, hhi⟩
  have hf := first_at_append (fun t : student => t.id = id) 0 pre s post hpre hid
  have hd : first_at (fun c : course => c.course_name = name) 0 cs = none :=
    (first_at_eq_none _ 0 cs).mpr hnew
  simp [grades_add_grade, registry, hgr, run_bind, list_find_id_eq, hf, run_pure,
    list_get, hc, list_find_course_eq, hd, malloc_of_succeed a n o h0,
    malloc_of_succeed _ (n + 1) o h1, list_push_back,
    clone_course_of_succeed _ _ (n + 1 + 1) o h2, course_destroy_eq, set_at_length]
  simp [← List.drop_one, List.drop_drop]

/-- C3, the claim as stated fails: student 1 exists and has no course `Math`, yet with the
first allocation request failing `grades_add_grade` with grade 0 returns `ERROR`. -/
theorem grades_add_grade_bounds_counterexample :
    (∀ c ∈ ([] : List course), c.course_name ≠ "Math") ∧
    grades_add_grade (registry [student.mk "A" 1 (some [])]) "Math" 1 0
        { allocs := [false], live := 0, out := "" }
      = .ret (ERROR, registry [student.mk "A" 1 (some [])])
          { allocs := [], live := 0, out := "" } ∧ ERROR ≠ 0 := by
  decide

/-- C3, amended. For every registry, course name and id, `grades_add_grade` with a grade
below 0 or above 100 returns the non-zero `ERROR`; and for an existing student (the one
the lookup finds) who has no course of that name, when every allocation succeeds,
`grades_add_grade` with grade 0 and with grade 100 both return 0. -/
theorem grades_add_grade_bounds (g : Option grades) (name : String) (id : Int)
    (grade : Int) (w : World) :
    ((grade < 0 ∨ 100 < grade) →
      grades_add_grade g name id grade w = .ret (ERROR, g) w ∧ ERROR ≠ 0) ∧
    (∀ (pre : List student) (s : student) (post : List student) (cs : List course),
      g = registry (pre ++ s :: post) → (∀ t ∈ pre, t.id ≠ id) → s.id = id →
      s.student_courses = some cs → (∀ c ∈ cs, c.course_name ≠ name) →
      allocs_succeed w →
      (∃ r w1, grades_add_grade g name id 0 w = .ret (0, r) w1) ∧
      (∃ r w1, grades_add_grade g name id 100 w = .ret (0, r) w1)) := by
  constructor
  · intro hgr
    refine ⟨?_, by decide⟩
    have hgr2 : grade < 0 ∨ grade > MAX_GRADE := hgr
    cases g <;> simp [grades_add_grade, hgr2, run_pure, ERROR]
  · intro pre s post cs hg hpre hid hc hnew hal
    subst hg
    exact ⟨⟨_, _, grades_add_grade_of_succeed pre s post cs name id 0 w hpre hid hc hnew
        (by decide) (by decide) hal⟩,
      ⟨_, _, grades_add_grade_of_succeed pre s post cs name id 100 w hpre hid hc hnew
        (by decide) (by decide) hal⟩⟩

theorem grades_add_grade_bounds_witness :
    ((-1 : Int) < 0 ∨ (100 : Int) < -1) ∧
    (grades_add_grade (registry [student.mk "A" 1 (some [])]) "Math" 1 (-1)
          { allocs := [], live := 0, out := "" }
        = .ret (ERROR, registry [student.mk "A" 1 (some [])])
            { allocs := [], live := 0, out := "" } ∧ ERROR ≠ 0) ∧
    ((∀ t ∈ ([] : List student), t.id ≠ 1) ∧ (student.mk "A" 1 (some [])).id = 1 ∧
      (∀ c ∈ ([] : List course), c.course_name ≠ "Math") ∧
      allocs_succeed { allocs := [], live := 0, out := "" }) ∧
    ((∃ r w1, grades_add_grade (registry [student.mk "A" 1 (some [])]) "Math" 1 0
          { allocs := [], live := 0, out := "" } = .ret (0, r) w1) ∧
      (∃ r w1, grades_add_grade (registry [student.mk "A" 1 (some [])]) "Math" 1 100
          { allocs := [], live := 0, out := "" } = .ret (0, r) w1)) :=
  ⟨by decide,
    (grades_add_grade_bounds (registry [student.mk "A" 1 (some [])]) "Math" 1 (-1)
      { allocs := [], live := 0, out := "" }).1 (by decide),
    ⟨by decide, by decide, by decide, by decide⟩,
    (grades_add_grade_bounds (registry [student.mk "A" 1 (some [])]) "Math" 1 (-1)
      { allocs := [], live := 0, out := "" }).2 [] (student.mk "A" 1 (some [])) [] []
      rfl (by decide) (by decide) rfl (by decide) (by decide)⟩

/-- C4. After one successful `grades_add_grade` for a student and a course name, a second
`grades_add_grade` for the same student and course name with any grade returns the
non-zero `ERROR` and changes nothing, and the course list of that student (the one the
lookup finds) holds exactly one record with that name, carrying the first call's grade. -/
theorem grades_add_grade_twice (l : List student) (name : String) (id : Int)
    (grade1 grade2 : Int) (w w1 : World) (r1 : Option grades)
    (h : grades_add_grade (registry l) name id grade1 w = .ret (0, r1) w1) :
    (grades_add_grade r1 name id grade2 w1 = .ret (ERROR, r1) w1 ∧ ERROR ≠ 0) ∧
    ∃ (pre : List student) (s : student) (post : List student) (cs : List course),
      r1 = registry (pre ++ s :: post) ∧ (∀ t ∈ pre, t.id ≠ id) ∧ s.id = id ∧
      s.student_courses = some cs ∧
      cs.filter (fun c => c.course_name = name)
        = [{ course_name := name, grade := grade1 }] := by
  rcases grades_add_grade_cases l name id grade1 w with ⟨w2, h2⟩ | h2 | h2
  · rw [h2] at h
    simp [ERROR] at h
  · rw [h2] at h
    cases h
  · obtain ⟨pre, s, post, cs, w2, hl, hpre, hid, hc, hnew, _, _, h2⟩ := h2
    rw [h2] at h
    injection h with hval hw
    have hr : r1 = registry (pre ++ student.mk s.name s.id
        (some (cs ++ [{ course_name := name, grade := grade1 }])) :: post) :=
      (congrArg Prod.snd hval).symm
    have hfilter : (cs ++ [course.mk name grade1]).filter (fun c => c.course_name = name)
        = [{ course_name := name, grade := grade1 }] := by
      have hnone : cs.filter (fun c => c.course_name = name) = [] := by
        rw [List.filter_eq_nil_iff]
        intro c hcm
        simpa using hnew c hcm
      simp [List.filter_append, hnone]
    refine ⟨⟨?_, by decide⟩, pre, _, post, _, hr, hpre, hid, rfl, hfilter⟩
    rw [hr]
    exact grades_add_grade_of_duplicate pre _ post _ name id grade2 w1 hpre hid rfl
      ⟨course.mk name grade1, by simp, rfl⟩

theorem grades_add_grade_twice_witness :
    grades_add_grade (registry [student.mk "A" 1 (some [])]) "Math" 1 90
        { allocs := [], live := 0, out := "" }
      = .ret (0, registry [student.mk "A" 1 (some [course.mk "Math" 90])])
          { allocs := [], live := 2, out := "" } ∧
    ((grades_add_grade (registry [student.mk "A" 1 (some [course.mk "Math" 90])]) "Math" 1 80
          { allocs := [], live := 2, out := "" }
        = .ret (ERROR, registry [student.mk "A" 1 (some [course.mk "Math" 90])])
            { allocs := [], live := 2, out := "" } ∧ ERROR ≠ 0) ∧
      ∃ (pre : List student) (s : student) (post : List student) (cs : List course),
        registry [student.mk "A" 1 (some [course.mk "Math" 90])]
          = registry (pre ++ s :: post) ∧ (∀ t ∈ pre, t.id ≠ 1) ∧ s.id = 1 ∧
        s.student_courses = some cs ∧
        cs.filter (fun c => c.course_name = "Math")
          = [{ course_name := "Math", grade := 90 }]) :=
  ⟨by decide,
    grades_add_grade_twice [student.mk "A" 1 (some [])] "Math" 1 90 80
      { allocs := [], live := 0, out := "" } { allocs := [], live := 2, out := "" }
      (registry [student.mk "A" 1 (some [course.mk "Math" 90])]) (by decide)⟩

/-- C5. Whenever `grades_add_grade` returns a non-zero result the registry after the call
is the registry before it, no student and no course list having changed; in particular,
when no student has the given id the call returns the non-zero `ERROR` and leaves the
registry and the world as they were. -/
theorem grades_add_grade_failure_atomic (g : Option grades) (name : String) (id : Int)
    (grade : Int) (w : World) :
    (∀ (rc : Int) (g1 : Option grades) (w1 : World),
      grades_add_grade g name id grade w = .ret (rc, g1) w1 → rc ≠ 0 → g1 = g) ∧
    (∀ l : List student, g = registry l → (∀ s ∈ l, s.id ≠ id) →
      grades_add_grade g name id grade w = .ret (ERROR, g) w ∧ ERROR ≠ 0) := by
  constructor
  · intro rc g1 w1 h hrc
    match g with
    | none =>
      simp [grades_add_grade, run_pure] at h
      exact h.1.2.symm
    | some ⟨none⟩ =>
      by_cases hgr : grade < 0 ∨ grade > MAX_GRADE
      · simp [grades_add_grade, hgr, run_pure] at h
        exact h.1.2.symm
      · simp [grades_add_grade, hgr, run_bind, list_find_id, list_begin, deref_null] at h
    | some ⟨some l⟩ =>
      rcases grades_add_grade_cases l name id grade w with ⟨w2, h2⟩ | h2 | h2
      · rw [show (some ⟨some l⟩ : Option grades) = registry l from rfl, h2] at h
        injection h with hval hw
        exact (congrArg Prod.snd hval).symm
      · rw [show (some ⟨some l⟩ : Option grades) = registry l from rfl, h2] at h
        cases h
      · obtain ⟨pre, s, post, cs, w2, _, _, _, _, _, _, _, h2⟩ := h2
        rw [show (some ⟨some l⟩ : Option grades) = registry l from rfl, h2] at h
        injection h with hval hw
        exact absurd (congrArg Prod.fst hval).symm hrc
  · intro l hg hid
    subst hg
    refine ⟨?_, by decide⟩
    by_cases hgr : grade < 0 ∨ grade > MAX_GRADE
    · simp [grades_add_grade, registry, hgr, run_pure]
    · have hnone : first_at (fun s : student => s.id = id) 0 l = none :=
        (first_at_eq_none _ 0 l).mpr hid
      simp [grades_add_grade, registry, hgr, run_bind, list_find_id_eq, hnone, run_pure]

theorem grades_add_grade_failure_atomic_witness :
    (grades_add_grade (registry [student.mk "A" 1 (some [course.mk "Math" 90])]) "CS" 1 80
        { allocs := [true, true, false], live := 0, out := "" }
      = .ret (1, registry [student.mk "A" 1 (some [course.mk "Math" 90])])
          { allocs := [], live := 0, out := "" } ∧ (1 : Int) ≠ 0 ∧
      registry [student.mk "A" 1 (some [course.mk "Math" 90])]
        = registry [student.mk "A" 1 (some [course.mk "Math" 90])]) ∧
    ((∀ s ∈ [student.mk "A" 1 (some [])], s.id ≠ 2) ∧
      grades_add_grade (registry [student.mk "A" 1 (some [])]) "Math" 2 50
          { allocs := [], live := 0, out := "" }
        = .ret (ERROR, registry [student.mk "A" 1 (some [])])
            { allocs := [], live := 0, out := "" } ∧ ERROR ≠ 0) :=
  ⟨⟨by decide, by decide,
      (grades_add_grade_failure_atomic
        (registry [student.mk "A" 1 (some [course.mk "Math" 90])]) "CS" 1 80
        { allocs := [true, true, false], live := 0, out := "" }).1 1
        (registry [student.mk "A" 1 (some [course.mk "Math" 90])])
        { allocs := [], live := 0, out := "" } (by decide) (by decide)⟩,
    by decide,
    (grades_add_grade_failure_atomic (registry [student.mk "A" 1 (some [])]) "Math" 2 50
      { allocs := [], live := 0, out := "" }).2 _ rfl (by decide)⟩

/-- C6. When the grade is between 0 and 100, a student with the id exists (`s`, the one
the lookup finds) and has no course of that name, and every allocation succeeds,
`grades_add_grade` returns 0 and the registry afterwards differs from the one before only
in that student's course list, which is the earlier list, in its order, followed by a
record with the given name and grade; the student's name and id and every other student
are as before. -/
theorem grades_add_grade_appends (pre : List student) (s : student) (post : List student)
    (cs : List course) (name : String) (id : Int) (grade : Int) (w : World)
    (hpre : ∀ t ∈ pre, t.id ≠ id) (hid : s.id = id) (hc : s.student_courses = some cs)
    (hnew : ∀ c ∈ cs, c.course_name ≠ name) (hlo : 0 ≤ grade) (hhi : grade ≤ 100)
    (hal : allocs_succeed w) :
    grades_add_grade (registry (pre ++ s :: post)) name id grade w
      = .ret (0, registry (pre ++ student.mk s.name s.id
            (some (cs ++ [{ course_name := name, grade := grade }])) :: post))
          { allocs := w.allocs.drop 4, live := w.live + 2, out := w.out } :=
  grades_add_grade_of_succeed pre s post cs name id grade w hpre hid hc hnew hlo hhi hal

theorem grades_add_grade_appends_witness :
    ((∀ t ∈ [student.mk "A" 1 (some [])], t.id ≠ 2) ∧
      (student.mk "B" 2 (some [course.mk "Math" 90])).id = 2 ∧
      (∀ c ∈ [course.mk "Math" 90], c.course_name ≠ "CS") ∧ (0 : Int) ≤ 80 ∧
      (80 : Int) ≤ 100 ∧ allocs_succeed { allocs := [true, true], live := 5, out := "" }) ∧
    grades_add_grade
        (registry ([student.mk "A" 1 (some [])]
          ++ student.mk "B" 2 (some [course.mk "Math" 90]) :: [student.mk "C" 3 none]))
        "CS" 2 80 { allocs := [true, true], live := 5, out := "" }
      = .ret (0, registry ([student.mk "A" 1 (some [])]
            ++ student.mk "B" 2 (some ([course.mk "Math" 90] ++ [course.mk "CS" 80]))
              :: [student.mk "C" 3 none]))
          { allocs := List.drop 4 [true, true], live := 5 + 2, out := "" } :=
  ⟨⟨by decide, by decide, by decide, by decide, by decide, by decide⟩,
    grades_add_grade_appends [student.mk "A" 1 (some [])]
      (student.mk "B" 2 (some [course.mk "Math" 90])) [student.mk "C" 3 none]
      [course.mk "Math" 90] "CS" 2 80 { allocs := [true, true], live := 5, out := "" }
      (by decide) (by decide) rfl (by decide) (by decide) (by decide) (by decide)⟩

/-! ## Single-precision rounding -/

theorem round_even_intCast (z : ℤ) : round_even (z : ℚ) = z := by
  simp [round_even]

theorem log_two_eq (r : ℚ) (e : ℤ) (hr : 0 < r) (h1 : (2 : ℚ) ^ e ≤ r)
    (h2 : r < (2 : ℚ) ^ (e + 1)) : Int.log 2 r = e := by
  have hb : 1 < 2 := by norm_num
  have ha : e ≤ Int.log 2 r :=
    (Int.zpow_le_iff_le_log hb hr).mp (by simpa using h1)
  have hc : Int.log 2 r < e + 1 :=
    (Int.lt_zpow_iff_log_lt hb hr).mp (by simpa using h2)
  omega

/-- A value with a significand of fewer than 25 bits is a `float`: rounding keeps it. -/
theorem f32_of_dyadic (z j : ℤ) (hz : |z| < 2 ^ 24) :
    f32 ((z : ℚ) * (2 : ℚ) ^ j) = (z : ℚ) * (2 : ℚ) ^ j := by
  by_cases hz0 : z = 0
  · simp [f32, hz0]
  have h2 : (2 : ℚ) ≠ 0 := by norm_num
  have hpos : 0 < (2 : ℚ) ^ j := zpow_pos (by norm_num) j
  have hq : (z : ℚ) * (2 : ℚ) ^ j ≠ 0 :=
    mul_ne_zero (Int.cast_ne_zero.mpr hz0) (ne_of_gt hpos)
  have habs : 0 < |(z : ℚ) * (2 : ℚ) ^ j| := abs_pos.mpr hq
  have hlt : |(z : ℚ) * (2 : ℚ) ^ j| < (2 : ℚ) ^ (24 + j) := by
    rw [abs_mul, abs_of_pos hpos, zpow_add₀ h2]
    apply mul_lt_mul_of_pos_right _ hpos
    have h24 : ((|z| : ℤ) : ℚ) < ((2 ^ 24 : ℤ) : ℚ) := Int.cast_lt.mpr hz
    rw [Int.cast_abs] at h24
    calc |(z : ℚ)| < ((2 ^ 24 : ℤ) : ℚ) := h24
      _ = (2 : ℚ) ^ (24 : ℤ) := by norm_num
  have hle : (2 : ℚ) ^ Int.log 2 |(z : ℚ) * (2 : ℚ) ^ j| ≤ |(z : ℚ) * (2 : ℚ) ^ j| := by
    simpa using Int.zpow_log_le_self (b := 2) (by norm_num) habs
  have he : Int.log 2 |(z : ℚ) * (2 : ℚ) ^ j| < 24 + j :=
    (zpow_lt_zpow_iff_right₀ (by norm_num : (1 : ℚ) < 2)).mp (lt_of_le_of_lt hle hlt)
  generalize hlog : Int.log 2 |(z : ℚ) * (2 : ℚ) ^ j| = e at he
  obtain ⟨k, hk⟩ : ∃ k : ℕ, j = e - 23 + k := ⟨(j - (e - 23)).toNat, by omega⟩
  have hscaled : (z : ℚ) * (2 : ℚ) ^ j / (2 : ℚ) ^ (e - 23) = ((z * 2 ^ k : ℤ) : ℚ) := by
    rw [hk, zpow_add₀ h2]
    field_simp
    ring
  rw [f32, if_neg hq]
  rw [show Int.log 2 |(z : ℚ) * (2 : ℚ) ^ j| = e from hlog, hscaled, round_even_intCast]
  rw [hk, zpow_add₀ h2, zpow_natCast]
  push_cast
  ring

theorem f32_intCast (z : ℤ) (hz : |z| < 2 ^ 24) : f32 (z : ℚ) = z := by
  have h := f32_of_dyadic z 0 hz
  simpa using h

theorem f32_natCast (n : ℕ) (hn : n < 2 ^ 24) : f32 (n : ℚ) = n := by
  have h := f32_intCast (n : ℤ) (by rw [abs_of_nonneg (by positivity)]; exact_mod_cast hn)
  simpa using h

theorem f32_FAIL : f32 (FAIL : ℚ) = -1 := by
  have h := f32_intCast (-1) (by norm_num)
  simpa [FAIL] using h

theorem f32_third : f32 (1 / 3) = 11184811 / 33554432 := by
  have habs : |(1 / 3 : ℚ)| = 1 / 3 := abs_of_pos (by norm_num)
  have hlog : Int.log 2 (1 / 3 : ℚ) = -2 :=
    log_two_eq _ _ (by norm_num) (by norm_num) (by norm_num)
  rw [f32, if_neg (by norm_num), habs, hlog]
  norm_num [round_even]

/-! ## `grades_calc_avg` -/

theorem grades_calc_avg_loop_eq (rest : List course) (k : Nat) (avg : ℚ) (w : World) :
    grades_calc_avg_loop rest.length (cursor_at k rest) avg w
      = .ret (rest.foldl (fun a c => f32 (a + f32 (c.grade : ℚ))) avg) w := by
  induction rest generalizing k avg with
  | nil => rfl
  | cons x rest ih =>
    simp [grades_calc_avg_loop, cursor_at_cons, run_bind, list_get, run_pure, list_next_some,
      ih]

theorem grades_calc_avg_of_unknown (l : List student) (id : Int) (w : World)
    (hid : ∀ s ∈ l, s.id ≠ id) :
    grades_calc_avg (registry l) id w = .ret (-1, none) w := by
  have hnone : first_at (fun s : student => s.id = id) 0 l = none :=
    (first_at_eq_none _ 0 l).mpr hid
  simp [grades_calc_avg, registry, run_bind, list_find_id_eq, hnone, run_pure, f32_FAIL]

theorem grades_calc_avg_of_alloc_failure (pre : List student) (s : student)
    (post : List student) (id : Int) (a : List Bool) (n : Nat) (o : String)
    (hpre : ∀ t ∈ pre, t.id ≠ id) (hid : s.id = id) :
    grades_calc_avg (registry (pre ++ s :: post)) id
        { allocs := false :: a, live := n, out := o }
      = .ret (-1, none) { allocs := a, live := n, out := o } := by
  have hf := first_at_append (fun t : student => t.id = id) 0 pre s post hpre hid
  simp [grades_calc_avg, registry, run_bind, list_find_id_eq, hf, run_pure, list_get,
    malloc, free, f32_FAIL]

theorem grades_calc_avg_of_empty (pre : List student) (s : student)
    (post : List student) (id : Int) (w : World)
    (hpre : ∀ t ∈ pre, t.id ≠ id) (hid : s.id = id) (hc : s.student_courses = some [])
    (hal : allocs_succeed w) :
    grades_calc_avg (registry (pre ++ s :: post)) id w
      = .ret (0, some s.name)
          { allocs := w.allocs.tail, live := w.live + 1, out := w.out } := by
  obtain ⟨a, n, o⟩ := w
  have h0 : ∀ b ∈ a, b = true := hal
  have hf := first_at_append (fun t : student => t.id = id) 0 pre s post hpre hid
  simp [grades_calc_avg, registry, run_bind, list_find_id_eq, hf, run_pure, list_get,
    malloc_of_succeed a n o h0, hc, list_begin, list_size]

theorem grades_calc_avg_of_courses (pre : List student) (s : student)
    (post : List student) (c : course) (cs : List course) (id : Int) (w : World)
    (hpre : ∀ t ∈ pre, t.id ≠ id) (hid : s.id = id)
    (hc : s.student_courses = some (c :: cs)) (hal : allocs_succeed w) :
    grades_calc_avg (registry (pre ++ s :: post)) id w
      = .ret (f32 ((c :: cs).foldl (fun a c => f32 (a + f32 (c.grade : ℚ))) 0
            / f32 ((c :: cs).length : ℚ)), some s.name)
          { allocs := w.allocs.tail, live := w.live + 1, out := w.out } := by
  obtain ⟨a, n, o⟩ := w
  have h0 : ∀ b ∈ a, b = true := hal
  have hf := first_at_append (fun t : student => t.id = id) 0 pre s post hpre hid
  have hloop := grades_calc_avg_loop_eq (c :: cs) 0 0
  simp only [cursor_at_cons, List.length_cons] at hloop
  simp [grades_calc_avg, registry, run_bind, list_find_id_eq, hf, run_pure, list_get,
    malloc_of_succeed a n o h0, hc, list_begin, list_size]
  rw [hloop]
  simp

theorem avg_fold_exact (cs : List course) (acc : ℕ)
    (hg : ∀ c ∈ cs, 0 ≤ c.grade ∧ c.grade ≤ 100) (hb : acc + 100 * cs.length < 2 ^ 24) :
    cs.foldl (fun a c => f32 (a + f32 (c.grade : ℚ))) (acc : ℚ)
      = (acc : ℚ) + (((cs.map course.grade).sum : ℤ) : ℚ) := by
  induction cs generalizing acc with
  | nil => simp
  | cons c cs ih =>
    obtain ⟨hlo, hhi⟩ := hg c (by simp)
    obtain ⟨g, hgeq⟩ : ∃ g : ℕ, c.grade = (g : ℤ) := ⟨c.grade.toNat, by omega⟩
    have hg100 : g ≤ 100 := by omega
    have hlen : acc + 100 * (cs.length + 1) < 2 ^ 24 := by simpa using hb
    have h1 : f32 ((c.grade : ℤ) : ℚ) = (g : ℚ) := by
      rw [hgeq]
      exact_mod_cast f32_natCast g (by omega)
    have h2 : f32 ((acc : ℚ) + (g : ℚ)) = ((acc + g : ℕ) : ℚ) := by
      have := f32_natCast (acc + g) (by omega)
      exact_mod_cast this
    have hrest := ih (acc + g) (fun d hd => hg d (by simp [hd])) (by omega)
    rw [List.foldl_cons, h1, h2, hrest, List.map_cons, List.sum_cons, hgeq]
    push_cast
    ring

theorem grades_calc_avg_of_bounded (pre : List student) (s : student)
    (post : List student) (cs : List course) (id : Int) (w : World)
    (hpre : ∀ t ∈ pre, t.id ≠ id) (hid : s.id = id) (hc : s.student_courses = some cs)
    (hne : cs ≠ []) (hg : ∀ c ∈ cs, 0 ≤ c.grade ∧ c.grade ≤ 100)
    (hlen : 100 * cs.length < 2 ^ 24) (hal : allocs_succeed w) :
    grades_calc_avg (registry (pre ++ s :: post)) id w
      = .ret (f32 ((((cs.map course.grade).sum : ℤ) : ℚ) / (cs.length : ℚ)), some s.name)
          { allocs := w.allocs.tail, live := w.live + 1, out := w.out } := by
  cases cs with
  | nil => exact absurd rfl hne
  | cons c cs =>
    rw [grades_calc_avg_of_courses pre s post c cs id w hpre hid hc hal]
    have hfold := avg_fold_exact (c :: cs) 0 hg (by simpa using hlen)
    have hn : f32 (((c :: cs).length : ℕ) : ℚ) = (((c :: cs).length : ℕ) : ℚ) :=
      f32_natCast _ (by omega)
    rw [hn]
    simp only [Nat.cast_zero, zero_add] at hfold
    rw [hfold]

/-- C7, the claim as stated fails. A student with grades 1, 0, 0 has arithmetic mean 1/3
and `grades_calc_avg` returns the `float` 11184811/33554432; and when the request for the
name buffer fails, a student with grades 70, 80, 90 gets -1. -/
theorem grades_calc_avg_mean_counterexample :
    (grades_calc_avg (registry [student.mk "A" 1
          (some [course.mk "a" 1, course.mk "b" 0, course.mk "c" 0])]) 1
        { allocs := [], live := 0, out := "" }
      = .ret (11184811 / 33554432, some "A") { allocs := [], live := 1, out := "" } ∧
      (11184811 / 33554432 : ℚ) ≠ (1 + 0 + 0) / 3) ∧
    (grades_calc_avg (registry [student.mk "A" 1
          (some [course.mk "a" 70, course.mk "b" 80, course.mk "c" 90])]) 1
        { allocs := [false], live := 0, out := "" }
      = .ret (-1, none) { allocs := [], live := 0, out := "" } ∧
      (-1 : ℚ) ≠ (70 + 80 + 90) / 3) := by
  refine ⟨⟨?_, by norm_num⟩, ?_, by norm_num⟩
  · have h := grades_calc_avg_of_bounded []
      (student.mk "A" 1 (some [course.mk "a" 1, course.mk "b" 0, course.mk "c" 0])) []
      [course.mk "a" 1, course.mk "b" 0, course.mk "c" 0] 1
      { allocs := [], live := 0, out := "" } (by decide) rfl rfl (by decide) (by decide)
      (by decide) (by decide)
    have hv : f32 ((((List.map course.grade
        [course.mk "a" 1, course.mk "b" 0, course.mk "c" 0]).sum : ℤ) : ℚ)
        / (([course.mk "a" 1, course.mk "b" 0, course.mk "c" 0].length : ℕ) : ℚ))
        = 11184811 / 33554432 := by
      rw [← f32_third]
      norm_num
    rw [hv] at h
    exact h
  · exact grades_calc_avg_of_alloc_failure [] _ [] 1 [] 0 "" (by decide) rfl

/-- C7, amended. For every registry and every id of a student (the one the lookup finds)
who has at least one course, with every grade between 0 and 100 and at most 167772
courses, when every allocation succeeds `grades_calc_avg` returns the sum of the
grades divided by the number of courses, rounded to the nearest `float`; the result is
that quotient itself whenever the quotient is a `float` (a significand of fewer than 25
bits times a power of two). -/
theorem grades_calc_avg_mean (pre : List student) (s : student) (post : List student)
    (cs : List course) (id : Int) (w : World)
    (hpre : ∀ t ∈ pre, t.id ≠ id) (hid : s.id = id) (hc : s.student_courses = some cs)
    (hne : cs ≠ []) (hg : ∀ c ∈ cs, 0 ≤ c.grade ∧ c.grade ≤ 100)
    (hlen : 100 * cs.length < 2 ^ 24) (hal : allocs_succeed w) :
    grades_calc_avg (registry (pre ++ s :: post)) id w
      = .ret (f32 ((((cs.map course.grade).sum : ℤ) : ℚ) / (cs.length : ℚ)), some s.name)
          { allocs := w.allocs.tail, live := w.live + 1, out := w.out } ∧
    (∀ z j : ℤ, |z| < 2 ^ 24 →
      (((cs.map course.grade).sum : ℤ) : ℚ) / (cs.length : ℚ) = (z : ℚ) * (2 : ℚ) ^ j →
      f32 ((((cs.map course.grade).sum : ℤ) : ℚ) / (cs.length : ℚ))
        = (((cs.map course.grade).sum : ℤ) : ℚ) / (cs.length : ℚ)) := by
  refine ⟨grades_calc_avg_of_bounded pre s post cs id w hpre hid hc hne hg hlen hal, ?_⟩
  intro z j hz hq
  rw [hq]
  exact f32_of_dyadic z j hz

theorem grades_calc_avg_mean_witness :
    ((∀ t ∈ ([] : List student), t.id ≠ 1) ∧
      [course.mk "a" 70, course.mk "b" 80, course.mk "c" 90] ≠ [] ∧
      (∀ c ∈ [course.mk "a" 70, course.mk "b" 80, course.mk "c" 90],
        0 ≤ c.grade ∧ c.grade ≤ 100) ∧
      100 * [course.mk "a" 70, course.mk "b" 80, course.mk "c" 90].length < 2 ^ 24 ∧
      allocs_succeed { allocs := [], live := 0, out := "" }) ∧
    grades_calc_avg (registry [student.mk "A" 1
          (some [course.mk "a" 70, course.mk "b" 80, course.mk "c" 90])]) 1
        { allocs := [], live := 0, out := "" }
      = .ret (80, some "A") { allocs := [], live := 1, out := "" } := by
  refine ⟨⟨by decide, by decide, by decide, by decide, by decide⟩, ?_⟩
  have h := grades_calc_avg_mean []
    (student.mk "A" 1 (some [course.mk "a" 70, course.mk "b" 80, course.mk "c" 90])) []
    [course.mk "a" 70, course.mk "b" 80, course.mk "c" 90] 1
    { allocs := [], live := 0, out := "" } (by decide) rfl rfl (by decide) (by decide)
    (by decide) (by decide)
  have hv := h.2 80 0 (by norm_num) (by norm_num)
  rw [hv] at h
  have h1 := h.1
  norm_num at h1
  exact h1

/-- C8, the claim as stated fails: student 1 has an empty course list, yet when the
request for the copy of the name fails `grades_calc_avg` returns the error value -1 and
leaves `NULL` in `out`. -/
theorem grades_calc_avg_no_courses_counterexample :
    (student.mk "A" 1 (some [])).student_courses = some [] ∧
    grades_calc_avg (registry [student.mk "A" 1 (some [])]) 1
        { allocs := [false], live := 0, out := "" }
      = .ret (-1, none) { allocs := [], live := 0, out := "" } :=
  ⟨rfl, grades_calc_avg_of_alloc_failure [] _ [] 1 [] 0 "" (by decide) rfl⟩

/-- C8, amended. For every registry and every id of a student (the one the lookup finds)
whose course list is empty, when every allocation succeeds `grades_calc_avg`
succeeds (it leaves the name in `out`) and returns exactly 0, which is
not the error value; no division takes place. -/
theorem grades_calc_avg_no_courses (pre : List student) (s : student)
    (post : List student) (id : Int) (w : World)
    (hpre : ∀ t ∈ pre, t.id ≠ id) (hid : s.id = id) (hc : s.student_courses = some [])
    (hal : allocs_succeed w) :
    grades_calc_avg (registry (pre ++ s :: post)) id w
      = .ret (0, some s.name)
          { allocs := w.allocs.tail, live := w.live + 1, out := w.out } ∧
    (0 : ℚ) ≠ f32 (FAIL : ℚ) := by
  refine ⟨grades_calc_avg_of_empty pre s post id w hpre hid hc hal, ?_⟩
  rw [f32_FAIL]
  norm_num

theorem grades_calc_avg_no_courses_witness :
    ((∀ t ∈ [student.mk "B" 2 (some [course.mk "Math" 90])], t.id ≠ 1) ∧
      allocs_succeed { allocs := [true], live := 4, out := "" }) ∧
    (grades_calc_avg (registry ([student.mk "B" 2 (some [course.mk "Math" 90])]
          ++ student.mk "A" 1 (some []) :: [])) 1
        { allocs := [true], live := 4, out := "" }
      = .ret (0, some "A") { allocs := List.tail [true], live := 4 + 1, out := "" } ∧
    (0 : ℚ) ≠ f32 (FAIL : ℚ)) :=
  ⟨⟨by decide, by decide⟩,
    grades_calc_avg_no_courses [student.mk "B" 2 (some [course.mk "Math" 90])]
      (student.mk "A" 1 (some [])) [] 1 { allocs := [true], live := 4, out := "" }
      (by decide) rfl rfl (by decide)⟩

/-- C9. For every registry and id: when no student has the id, `grades_calc_avg` returns
-1, sets `out` to `NULL` and leaves the world as it was; when a student has the id (`s`,
the one the lookup finds, holding a course container) and the allocation succeeds, the
call sets `out` to a string equal to that student's name, whether or not the student has
courses. The function only reads the registry, which is therefore the same after the call
in both cases. -/
theorem grades_calc_avg_out (g : Option grades) (id : Int) (w : World) :
    (∀ l : List student, g = registry l → (∀ s ∈ l, s.id ≠ id) →
      grades_calc_avg g id w = .ret (-1, none) w) ∧
    (∀ (pre : List student) (s : student) (post : List student) (cs : List course),
      g = registry (pre ++ s :: post) → (∀ t ∈ pre, t.id ≠ id) → s.id = id →
      s.student_courses = some cs → allocs_succeed w →
      ∃ avg : ℚ, grades_calc_avg g id w
        = .ret (avg, some s.name)
            { allocs := w.allocs.tail, live := w.live + 1, out := w.out }) := by
  constructor
  · intro l hg hid
    subst hg
    exact grades_calc_avg_of_unknown l id w hid
  · intro pre s post cs hg hpre hid hc hal
    subst hg
    cases cs with
    | nil => exact ⟨_, grades_calc_avg_of_empty pre s post id w hpre hid hc hal⟩
    | cons c cs => exact ⟨_, grades_calc_avg_of_courses pre s post c cs id w hpre hid hc hal⟩

theorem grades_calc_avg_out_witness :
    ((∀ s ∈ [student.mk "A" 1 (some [])], s.id ≠ 2) ∧
      grades_calc_avg (registry [student.mk "A" 1 (some [])]) 2
          { allocs := [false], live := 0, out := "" }
        = .ret (-1, none) { allocs := [false], live := 0, out := "" }) ∧
    ((∀ t ∈ ([] : List student), t.id ≠ 1) ∧
      allocs_succeed { allocs := [], live := 0, out := "" } ∧
      ∃ avg : ℚ, grades_calc_avg (registry ([] ++ student.mk "A" 1 (some []) :: [])) 1
          { allocs := [], live := 0, out := "" }
        = .ret (avg, some "A") { allocs := List.tail [], live := 0 + 1, out := "" }) :=
  ⟨⟨by decide,
      (grades_calc_avg_out (registry [student.mk "A" 1 (some [])]) 2
        { allocs := [false], live := 0, out := "" }).1 _ rfl (by decide)⟩,
    by decide, by decide,
    (grades_calc_avg_out (registry ([] ++ student.mk "A" 1 (some []) :: [])) 1
      { allocs := [], live := 0, out := "" }).2 [] (student.mk "A" 1 (some [])) [] [] rfl
      (by decide) rfl rfl (by decide)⟩

/-! ## `grades_print_student` -/

theorem intercalate_go_append (acc x sep : String) (l : List String) :
    String.intercalate.go (acc ++ x) sep l = acc ++ String.intercalate.go x sep l := by
  induction l generalizing x with
  | nil => simp [String.intercalate.go]
  | cons y rest ih =>
    simp only [String.intercalate.go]
    rw [String.append_assoc acc x sep, String.append_assoc acc (x ++ sep) y, ih]

theorem grades_print_student_loop_eq (x : course) (rest : List course) (k list_len : Nat)
    (hlen : list_len = k + (rest.length + 1)) (a : List Bool) (n : Nat) (o : String) :
    grades_print_student_loop list_len (rest.length + 1) k
        (some { idx := k, elem := x, after := rest }) { allocs := a, live := n, out := o }
      = .ret () (World.mk a n
          (String.intercalate.go (o ++ course_text x) "," (rest.map course_text))) := by
  induction rest generalizing x k o with
  | nil =>
    have hk : k = list_len - 1 := by simp only [List.length_nil] at hlen; omega
    simp [grades_print_student_loop, run_bind, list_get, run_pure, printf, list_next, hk,
      String.intercalate.go, course_text]
  | cons y rest ih =>
    have hk : k ≠ list_len - 1 := by simp only [List.length_cons] at hlen; omega
    have hnext := ih y (k + 1) (by simp only [List.length_cons] at hlen; omega)
      (o ++ course_text x ++ ",")
    simp only [List.length_cons] at hnext ⊢
    simp [grades_print_student_loop, run_bind, list_get, run_pure, printf, list_next_some,
      cursor_at_cons, hk, String.intercalate.go, course_text] at hnext ⊢
    exact hnext

theorem grades_print_student_found (pre : List student) (s : student) (post : List student)
    (id : Int) (w : World) (hpre : ∀ t ∈ pre, t.id ≠ id) (hid : s.id = id) :
    grades_print_student (registry (pre ++ s :: post)) id w
      = .ret 0 (World.mk w.allocs w.live
          (w.out ++ student_line s.name s.id (s.student_courses.getD []))) := by
  obtain ⟨a, n, o⟩ := w
  have hf := first_at_append (fun t : student => t.id = id) 0 pre s post hpre hid
  cases hc : s.student_courses with
  | none =>
    simp [grades_print_student, registry, run_bind, list_find_id_eq, hf, run_pure, list_get,
      printf, hc, student_line, String.intercalate, String.append_assoc]
  | some cs =>
    cases cs with
    | nil =>
      simp [grades_print_student, registry, run_bind, list_find_id_eq, hf, run_pure,
        list_get, printf, hc, student_line, String.intercalate, String.append_assoc,
        list_begin, list_size, grades_print_student_loop]
    | cons x rest =>
      have hloop := grades_print_student_loop_eq x rest 0 (rest.length + 1) (by omega) a n
        (o ++ (s.name ++ " " ++ toString s.id ++ ":"))
      simp [grades_print_student, registry, run_bind, list_find_id_eq, hf, run_pure,
        list_get, printf, hc, student_line, String.intercalate, String.append_assoc,
        list_begin, list_size] at hloop ⊢
      rw [hloop]
      simp [← String.append_assoc, intercalate_go_append]

/-- C10. For every registry and every id of an existing student (`s`, the one the lookup
finds) with name N and courses `cs` in insertion order, `grades_print_student` returns 0
and appends to the output exactly the name, a blank, the id and a colon, then for each
course in order a blank, the course name, a blank and the grade in decimal, with a comma
after every course except the last, then one newline. With no courses nothing stands
between the colon and the newline. -/
theorem grades_print_student_format (pre : List student) (s : student)
    (post : List student) (cs : List course) (id : Int) (w : World)
    (hpre : ∀ t ∈ pre, t.id ≠ id) (hid : s.id = id) (hc : s.student_courses = some cs) :
    grades_print_student (registry (pre ++ s :: post)) id w
      = .ret 0 (World.mk w.allocs w.live
          (w.out ++ (s.name ++ " " ++ toString s.id ++ ":"
            ++ ",".intercalate (cs.map (fun c => " " ++ c.course_name ++ " " ++ toString c.grade))
            ++ "\n"))) := by
  have h := grades_print_student_found pre s post id w hpre hid
  rw [hc] at h
  exact h

theorem grades_print_student_format_witness :
    ((∀ t ∈ ([] : List student), t.id ≠ 1) ∧
      grades_print_student
          (registry ([] ++ student.mk "A" 1 (some [course.mk "Math" 90, course.mk "CS" 80])
            :: [student.mk "B" 2 (some [])])) 1 { allocs := [], live := 0, out := "" }
        = .ret 0 { allocs := [], live := 0, out := "A 1: Math 90, CS 80\n" }) ∧
    ((∀ t ∈ [student.mk "A" 1 (some [course.mk "Math" 90, course.mk "CS" 80])], t.id ≠ 2) ∧
      grades_print_student
          (registry ([student.mk "A" 1 (some [course.mk "Math" 90, course.mk "CS" 80])]
            ++ student.mk "B" 2 (some []) :: [])) 2 { allocs := [], live := 0, out := "" }
        = .ret 0 { allocs := [], live := 0, out := "B 2:\n" }) :=
  ⟨⟨by decide,
      grades_print_student_format []
        (student.mk "A" 1 (some [course.mk "Math" 90, course.mk "CS" 80]))
        [student.mk "B" 2 (some [])] [course.mk "Math" 90, course.mk "CS" 80] 1
        { allocs := [], live := 0, out := "" } (by decide) rfl rfl⟩,
    by decide,
    grades_print_student_format
      [student.mk "A" 1 (some [course.mk "Math" 90, course.mk "CS" 80])]
      (student.mk "B" 2 (some [])) [] [] 2 { allocs := [], live := 0, out := "" }
      (by decide) rfl rfl⟩

/-! ## `grades_print_student` on an unknown id -/

/-- C11. For every registry and every id that no student of the registry has,
`grades_print_student` returns the non-zero `ERROR` and prints nothing: the world, with
its output, is as before the call. -/
theorem grades_print_student_unknown (l : List student) (id : Int) (w : World)
    (hid : ∀ s ∈ l, s.id ≠ id) :
    grades_print_student (registry l) id w = .ret ERROR w ∧ ERROR ≠ 0 := by
  have hnone : first_at (fun s : student => s.id = id) 0 l = none :=
    (first_at_eq_none _ 0 l).mpr hid
  refine ⟨?_, by decide⟩
  simp [grades_print_student, registry, run_bind, list_find_id_eq, hnone, run_pure]

theorem grades_print_student_unknown_witness :
    (∀ s ∈ [student.mk "A" 1 (some [course.mk "Math" 90])], s.id ≠ 2) ∧
    (grades_print_student (registry [student.mk "A" 1 (some [course.mk "Math" 90])]) 2
        { allocs := [], live := 0, out := "x" }
      = .ret ERROR { allocs := [], live := 0, out := "x" } ∧ ERROR ≠ 0) :=
  ⟨by decide, grades_print_student_unknown _ 2 _ (by decide)⟩

/-! ## Every way the two mutators can end -/

/-- The ways a call of `grades_add_student` on a valid registry can end: it fails and the
registry is as before; or the id was new, it returns 0, and the registry holds one more
student, last, with the given name and id and a course container that is empty or, when
`list_init` failed inside `clone_student`, missing. -/
theorem grades_add_student_cases (l : List student) (name : String) (id : Int) (w : World) :
    (∃ w1, grades_add_student (registry l) name id w = .ret (ERROR, registry l) w1)
    ∨ (∃ sc w1, (∀ s ∈ l, s.id ≠ id) ∧ (sc = some [] ∨ sc = none)
        ∧ grades_add_student (registry l) name id w
          = .ret (0, registry (l ++ [student.mk name id sc])) w1) := by
  obtain ⟨a, n, o⟩ := w
  cases hf : first_at (fun s : student => s.id = id) 0 l with
  | some it =>
    exact Or.inl ⟨⟨a, n, o⟩, by
      simp [grades_add_student, registry, run_bind, list_find_id_eq, hf, run_pure]⟩
  | none =>
    have hid : ∀ s ∈ l, s.id ≠ id := (first_at_eq_none _ 0 l).mp hf
    obtain ⟨b1, hm1⟩ := malloc_cases a n o
    cases b1 with
    | false =>
      exact Or.inl ⟨⟨a.tail, n, o⟩, by
        simp [grades_add_student, registry, run_bind, list_find_id_eq, hf, run_pure, hm1,
          free_eq]⟩
    | true =>
      obtain ⟨b2, hm2⟩ := malloc_cases a.tail (n + 1) o
      cases b2 with
      | false =>
        exact Or.inl ⟨⟨a.tail.tail, n + 1 - 1, o⟩, by
          simp [grades_add_student, registry, run_bind, list_find_id_eq, hf, run_pure, hm1,
            hm2, free_eq]⟩
      | true =>
        obtain ⟨b3, hm3⟩ := malloc_cases a.tail.tail (n + 1 + 1) o
        cases b3 with
        | false =>
          exact Or.inl ⟨⟨a.tail.tail.tail, n + 1 + 1 - 1 - 1, o⟩, by
            simp [grades_add_student, registry, run_bind, list_find_id_eq, hf, run_pure,
              hm1, hm2, hm3, free_eq, list_init]⟩
        | true =>
          obtain ⟨b4, hm4⟩ := malloc_cases a.tail.tail.tail (n + 1 + 1 + 1) o
          cases b4 with
          | false =>
            exact Or.inl ⟨⟨a.tail.tail.tail.tail, n + 1 + 1 + 1 - 1 - 1 - 1, o⟩, by
              simp [grades_add_student, registry, run_bind, list_find_id_eq, hf, run_pure,
                hm1, hm2, hm3, hm4, free_eq, list_init, list_push_back, clone_student,
                destroy_fresh_student, ERROR]⟩
          | true =>
            obtain ⟨b5, hm5⟩ := malloc_cases a.tail.tail.tail.tail (n + 1 + 1 + 1 + 1) o
            cases b5 with
            | false =>
              exact Or.inl ⟨⟨a.tail.tail.tail.tail.tail, n + 1 + 1 + 1 + 1 - 1 - 1 - 1, o⟩, by
                simp [grades_add_student, registry, run_bind, list_find_id_eq, hf,
                  run_pure, hm1, hm2, hm3, hm4, hm5, free_eq, list_init, list_push_back,
                  clone_student, destroy_fresh_student, ERROR]⟩
            | true =>
              obtain ⟨b6, hm6⟩ :=
                malloc_cases a.tail.tail.tail.tail.tail (n + 1 + 1 + 1 + 1 + 1) o
              cases b6 with
              | false =>
                exact Or.inr ⟨none,
                  ⟨a.tail.tail.tail.tail.tail.tail, n + 1 + 1 + 1 + 1 + 1 - 1 - 1 - 1, o⟩,
                  hid, Or.inr rfl, by
                  simp [grades_add_student, registry, run_bind, list_find_id_eq, hf,
                    run_pure, hm1, hm2, hm3, hm4, hm5, hm6, free_eq, list_init,
                    list_push_back, clone_student, destroy_fresh_student]⟩
              | true =>
                exact Or.inr ⟨some [],
                  ⟨a.tail.tail.tail.tail.tail.tail, n + 1 + 1 + 1 + 1 + 1 + 1 - 1 - 1 - 1, o⟩,
                  hid, Or.inl rfl, by
                  simp [grades_add_student, registry, run_bind, list_find_id_eq, hf,
                    run_pure, hm1, hm2, hm3, hm4, hm5, hm6, free_eq, list_init,
                    list_push_back, clone_student, destroy_fresh_student]⟩

theorem grades_init_cases (w : World) :
    ∃ w1, grades_init w = .ret none w1 ∨ grades_init w = .ret (registry []) w1 := by
  obtain ⟨a, n, o⟩ := w
  obtain ⟨b1, hm1⟩ := malloc_cases a n o
  cases b1 with
  | false =>
    exact ⟨⟨a.tail, n, o⟩, Or.inl (by simp [grades_init, run_bind, run_pure, hm1, free_eq])⟩
  | true =>
    obtain ⟨b2, hm2⟩ := malloc_cases a.tail (n + 1) o
    cases b2 with
    | false =>
      exact ⟨⟨a.tail.tail, n + 1 - 1, o⟩, Or.inl (by
        simp [grades_init, run_bind, run_pure, hm1, hm2, free_eq, list_init])⟩
    | true =>
      exact ⟨⟨a.tail.tail, n + 1 + 1, o⟩, Or.inr (by
        simp [grades_init, run_bind, run_pure, hm1, hm2, free_eq, list_init, registry])⟩

/-! ## Invariants of the reachable registries -/

theorem grades_add_student_null (name : String) (id : Int) (w : World) :
    grades_add_student none name id w = .ret (ERROR, none) w := rfl

theorem grades_add_grade_null (name : String) (id : Int) (grade : Int) (w : World) :
    grades_add_grade none name id grade w = .ret (ERROR, none) w := rfl

theorem ret_inj {α : Type} {a b : α} {w1 w2 : World} (h : Res.ret a w1 = Res.ret b w2) :
    a = b ∧ w1 = w2 := by
  injection h with h1 h2
  exact ⟨h1, h2⟩

/-- A reachable registry is `NULL` (when `grades_init` failed) or a valid registry whose
students have pairwise different ids and whose course lists hold pairwise different course
names and grades between 0 and 100. -/
theorem reachable_invariant (g : Option grades) (h : reachable g) :
    g = none ∨ ∃ l, g = registry l ∧ (l.map student.id).Nodup ∧
      ∀ s ∈ l, ∀ cs, s.student_courses = some cs →
        (cs.map course.course_name).Nodup ∧ ∀ c ∈ cs, 0 ≤ c.grade ∧ c.grade ≤ 100 := by
  induction h with
  | init w w1 g hrun =>
    obtain ⟨w2, h2 | h2⟩ := grades_init_cases w
    · rw [h2] at hrun
      exact Or.inl (ret_inj hrun).1.symm
    · rw [h2] at hrun
      exact Or.inr ⟨[], (ret_inj hrun).1.symm, by simp, by simp⟩
  | add_student g g1 name id rc w w1 _ hrun ih =>
    rcases ih with hnull | ⟨l, hl, hids, hcs⟩
    · subst hnull
      rw [grades_add_student_null] at hrun
      exact Or.inl (congrArg Prod.snd (ret_inj hrun).1).symm
    · subst hl
      rcases grades_add_student_cases l name id w with ⟨w2, h2⟩ | ⟨sc, w2, hnew, hsc, h2⟩
      · rw [h2] at hrun
        exact Or.inr ⟨l, (congrArg Prod.snd (ret_inj hrun).1).symm, hids, hcs⟩
      · rw [h2] at hrun
        refine Or.inr ⟨_, (congrArg Prod.snd (ret_inj hrun).1).symm, ?_, ?_⟩
        · rw [List.map_append, List.nodup_append]
          refine ⟨hids, by simp, ?_⟩
          intro x hx hx2
          simp only [List.map_cons, List.map_nil, List.mem_singleton] at hx2
          obtain ⟨s, hs, hsid⟩ := List.mem_map.mp hx
          exact hnew s hs (hsid.trans hx2)
        · intro s hs cs hc
          rcases List.mem_append.mp hs with hs | hs
          · exact hcs s hs cs hc
          · simp only [List.mem_singleton] at hs
            subst hs
            rcases hsc with hsc | hsc
            · subst hsc
              simp only [Option.some.injEq] at hc
              subst hc
              exact ⟨by simp, by simp⟩
            · subst hsc
              cases hc
  | add_grade g g1 name id grade rc w w1 _ hrun ih =>
    rcases ih with hnull | ⟨l, hl, hids, hcs⟩
    · subst hnull
      rw [grades_add_grade_null] at hrun
      exact Or.inl (congrArg Prod.snd (ret_inj hrun).1).symm
    · subst hl
      rcases grades_add_grade_cases l name id grade w with ⟨w2, h2⟩ | h2 | h2
      · rw [h2] at hrun
        exact Or.inr ⟨l, (congrArg Prod.snd (ret_inj hrun).1).symm, hids, hcs⟩
      · rw [h2] at hrun
        cases hrun
      · obtain ⟨pre, s, post, cs, w2, hl, _, _, hc, hnew, hlo, hhi, h2⟩ := h2
        rw [h2] at hrun
        subst hl
        refine Or.inr ⟨_, (congrArg Prod.snd (ret_inj hrun).1).symm, ?_, ?_⟩
        · simpa using hids
        · intro t ht ds hd
          rcases List.mem_append.mp ht with ht | ht
          · exact hcs t (by simp [ht]) ds hd
          · rcases List.mem_cons.mp ht with ht | ht
            · subst ht
              simp only [Option.some.injEq] at hd
              subst hd
              obtain ⟨hnd, hgr⟩ := hcs s (by simp) cs hc
              constructor
              · rw [List.map_append, List.nodup_append]
                refine ⟨hnd, by simp, ?_⟩
                intro x hx hx2
                simp only [List.map_cons, List.map_nil, List.mem_singleton] at hx2
                obtain ⟨c, hcm, hcn⟩ := List.mem_map.mp hx
                exact hnew c hcm (hcn.trans hx2)
              · intro c hcm
                rcases List.mem_append.mp hcm with hcm | hcm
                · exact hgr c hcm
                · simp only [List.mem_singleton] at hcm
                  subst hcm
                  exact ⟨hlo, hhi⟩
            · exact hcs t (by simp [ht]) ds hd

/-- A registry built through the interface: students A (id 1) and B (id 2) are registered
in this order, a duplicate registration of id 1 fails, then A gets Math 90 and CS 80. -/
theorem reachable_sample :
    reachable (registry [student.mk "A" 1 (some [course.mk "Math" 90, course.mk "CS" 80]),
      student.mk "B" 2 (some [])]) := by
  have h0 : reachable (registry []) :=
    reachable.init { allocs := [], live := 0, out := "" } { allocs := [], live := 2, out := "" }
      _ (by decide)
  have h1 : reachable (registry [student.mk "A" 1 (some [])]) :=
    reachable.add_student _ _ "A" 1 0 { allocs := [], live := 2, out := "" }
      { allocs := [], live := 5, out := "" } h0 (by decide)
  have h2 : reachable (registry [student.mk "A" 1 (some []), student.mk "B" 2 (some [])]) :=
    reachable.add_student _ _ "B" 2 0 { allocs := [], live := 5, out := "" }
      { allocs := [], live := 8, out := "" } h1 (by decide)
  have h3 : reachable (registry [student.mk "A" 1 (some []), student.mk "B" 2 (some [])]) :=
    reachable.add_student _ _ "C" 1 1 { allocs := [], live := 8, out := "" }
      { allocs := [], live := 8, out := "" } h2 (by decide)
  have h4 : reachable (registry [student.mk "A" 1 (some [course.mk "Math" 90]),
      student.mk "B" 2 (some [])]) :=
    reachable.add_grade _ _ "Math" 1 90 0 { allocs := [], live := 8, out := "" }
      { allocs := [], live := 10, out := "" } h3 (by decide)
  exact reachable.add_grade _ _ "CS" 1 80 0 { allocs := [], live := 10, out := "" }
    { allocs := [], live := 12, out := "" } h4 (by decide)

/-- C13. In every registry reachable from `grades_init` by calls of `grades_add_student`
and `grades_add_grade`, successful or failing, no two student records have the same id. -/
theorem reachable_ids_unique (l : List student) (h : reachable (registry l)) :
    l.Pairwise (fun s t => s.id ≠ t.id) := by
  rcases reachable_invariant _ h with hnull | ⟨l1, hl, hids, _⟩
  · cases hnull
  · have hl1 : l = l1 := by
      simpa [registry] using hl
    subst hl1
    exact (List.pairwise_map.mp hids)

theorem reachable_ids_unique_witness :
    reachable (registry [student.mk "A" 1 (some [course.mk "Math" 90, course.mk "CS" 80]),
      student.mk "B" 2 (some [])]) ∧
    [student.mk "A" 1 (some [course.mk "Math" 90, course.mk "CS" 80]),
      student.mk "B" 2 (some [])].Pairwise (fun s t => s.id ≠ t.id) :=
  ⟨reachable_sample, reachable_ids_unique _ reachable_sample⟩

/-- C14. In every registry reachable from `grades_init` by calls of `grades_add_student`
and `grades_add_grade`, every student's course list has no two course records with the
same course name, and every course record's grade is between 0 and 100. -/
theorem reachable_courses_valid (l : List student) (h : reachable (registry l)) :
    ∀ s ∈ l, ∀ cs, s.student_courses = some cs →
      cs.Pairwise (fun c d => c.course_name ≠ d.course_name) ∧
      ∀ c ∈ cs, 0 ≤ c.grade ∧ c.grade ≤ 100 := by
  rcases reachable_invariant _ h with hnull | ⟨l1, hl, _, hcs⟩
  · cases hnull
  · have hl1 : l = l1 := by
      simpa [registry] using hl
    subst hl1
    intro s hs cs hc
    exact ⟨List.pairwise_map.mp (hcs s hs cs hc).1, (hcs s hs cs hc).2⟩

theorem reachable_courses_valid_witness :
    reachable (registry [student.mk "A" 1 (some [course.mk "Math" 90, course.mk "CS" 80]),
      student.mk "B" 2 (some [])]) ∧
    ([course.mk "Math" 90, course.mk "CS" 80].Pairwise
        (fun c d => c.course_name ≠ d.course_name) ∧
      ∀ c ∈ [course.mk "Math" 90, course.mk "CS" 80], 0 ≤ c.grade ∧ c.grade ≤ 100) :=
  ⟨reachable_sample,
    reachable_courses_valid _ reachable_sample
      (student.mk "A" 1 (some [course.mk "Math" 90, course.mk "CS" 80])) (by simp)
      [course.mk "Math" 90, course.mk "CS" 80] rfl⟩

/-! ## `grades_print_all` -/

theorem foldl_append_string (acc : String) (l : List String) :
    List.foldl (fun r s => r ++ s) acc l = acc ++ List.foldl (fun r s => r ++ s) "" l := by
  induction l generalizing acc with
  | nil => simp
  | cons x rest ih =>
    simp only [List.foldl_cons]
    rw [ih (acc ++ x), ih ("" ++ x), String.empty_append, String.append_assoc]

theorem string_join_cons (x : String) (l : List String) :
    String.join (x :: l) = x ++ String.join l := by
  simp only [String.join, List.foldl_cons]
  rw [foldl_append_string, String.empty_append]

theorem grades_print_all_loop_eq (done rest : List student) (k : Nat) (a : List Bool)
    (n : Nat) (o : String)
    (hids : (done ++ rest).Pairwise (fun s t => s.id ≠ t.id)) :
    grades_print_all_loop (registry (done ++ rest)) rest.length (cursor_at k rest)
        { allocs := a, live := n, out := o }
      = .ret () (World.mk a n (o ++ String.join
          (rest.map (fun s => student_line s.name s.id (s.student_courses.getD []))))) := by
  induction rest generalizing done k o with
  | nil => simp [grades_print_all_loop, cursor_at, run_pure, String.join]
  | cons x xs ih =>
    have hpre : ∀ t ∈ done, t.id ≠ x.id := by
      intro t ht
      exact (List.pairwise_append.mp hids).2.2 t ht x (by simp)
    have hprint := grades_print_student_found done x xs x.id
      { allocs := a, live := n, out := o } hpre rfl
    have hnext := ih (done ++ [x]) (k + 1)
      (o ++ student_line x.name x.id (x.student_courses.getD [])) (by simpa using hids)
    rw [List.append_assoc] at hnext
    simp only [List.singleton_append] at hnext
    simp only [List.length_cons, grades_print_all_loop, cursor_at_cons, run_bind, list_get,
      run_pure, hprint, list_next_some, hnext, List.map_cons, string_join_cons,
      String.append_assoc]

theorem grades_print_all_of_unique (l : List student) (w : World)
    (hids : l.Pairwise (fun s t => s.id ≠ t.id)) :
    grades_print_all (registry l) w
      = .ret 0 (World.mk w.allocs w.live (w.out ++ String.join
          (l.map (fun s => student_line s.name s.id (s.student_courses.getD []))))) := by
  obtain ⟨a, n, o⟩ := w
  have hloop := grades_print_all_loop_eq [] l 0 a n o (by simpa using hids)
  simp only [List.nil_append] at hloop
  simp [grades_print_all, registry, run_bind, list_begin_some, list_size, run_pure] at hloop ⊢
  rw [hloop]

/-- C12. For every registry reachable from `grades_init` by calls of `grades_add_student`
and `grades_add_grade`, `grades_print_all` returns 0 and appends to the output the lines
of the students in insertion order, one line per student (so nothing for the empty
registry); and the line of each student is what `grades_print_student` prints when called
with that student's id: the student's own name, id and courses (no courses when the
course container is missing). -/
theorem grades_print_all_lines (l : List student) (w : World)
    (h : reachable (registry l)) :
    grades_print_all (registry l) w
      = .ret 0 (World.mk w.allocs w.live (w.out ++ String.join
          (l.map (fun s => student_line s.name s.id (s.student_courses.getD []))))) ∧
    ∀ (pre : List student) (s : student) (post : List student) (w1 : World),
      l = pre ++ s :: post →
      grades_print_student (registry l) s.id w1
        = .ret 0 (World.mk w1.allocs w1.live
            (w1.out ++ student_line s.name s.id (s.student_courses.getD []))) := by
  have hids : l.Pairwise (fun s t => s.id ≠ t.id) := by
    rcases reachable_invariant _ h with hnull | ⟨l1, hl, hids, _⟩
    · cases hnull
    · have hl1 : l = l1 := by
        simpa [registry] using hl
      subst hl1
      exact List.pairwise_map.mp hids
  refine ⟨grades_print_all_of_unique l w hids, ?_⟩
  intro pre s post w1 hl
  subst hl
  exact grades_print_student_found pre s post s.id w1
    (fun t ht => (List.pairwise_append.mp hids).2.2 t ht s (by simp)) rfl

theorem grades_print_all_lines_witness :
    (reachable (registry [student.mk "A" 1 (some [course.mk "Math" 90, course.mk "CS" 80]),
        student.mk "B" 2 (some [])]) ∧
      grades_print_all
          (registry [student.mk "A" 1 (some [course.mk "Math" 90, course.mk "CS" 80]),
            student.mk "B" 2 (some [])]) { allocs := [], live := 12, out := "" }
        = .ret 0 { allocs := [], live := 12, out := "A 1: Math 90, CS 80\nB 2:\n" }) ∧
    (reachable (registry []) ∧
      grades_print_all (registry []) { allocs := [], live := 2, out := "" }
        = .ret 0 { allocs := [], live := 2, out := "" }) :=
  ⟨⟨reachable_sample,
      (grades_print_all_lines _ { allocs := [], live := 12, out := "" } reachable_sample).1⟩,
    reachable.init { allocs := [], live := 0, out := "" }
      { allocs := [], live := 2, out := "" } _ (by decide),
    (grades_print_all_lines [] { allocs := [], live := 2, out := "" }
      (reachable.init { allocs := [], live := 0, out := "" }
        { allocs := [], live := 2, out := "" } _ (by decide))).1⟩

/-! ## The clone callbacks -/

/-- C19. When the record is allocated and the name buffer is not, `clone_student` and
`clone_course` return `ERROR` without releasing the record: one more block is live after
the call than before it. -/
theorem clone_partial_failure_leaks (s : student) (c : course) (rest : List Bool) (n : Nat)
    (o : String) :
    clone_student s { allocs := true :: false :: rest, live := n, out := o }
      = .ret (ERROR, none) { allocs := rest, live := n + 1, out := o } ∧
    clone_course c { allocs := true :: false :: rest, live := n, out := o }
      = .ret (ERROR, none) { allocs := rest, live := n + 1, out := o } ∧
    n + 1 ≠ n := by
  refine ⟨?_, ?_, by omega⟩
  · simp [clone_student, run_bind, run_pure, malloc, free]
  · simp [clone_course, run_bind, run_pure, malloc, free]

/-! ## Allocation failure in `grades_add_student` -/

/-- C16. On the empty registry, when one of the first five allocation requests of
`grades_add_student` fails (the record, the name buffer, the course container, the stored
copy, the name buffer of the copy) the call returns `ERROR` and the registry is unchanged;
but when the sixth fails (the course container of the stored copy, whose `list_init`
result `clone_student` does not check) the call returns 0 and the registry holds a student
whose course container is missing. -/
theorem grades_add_student_alloc_failure :
    grades_add_student (registry []) "A" 1 { allocs := [false], live := 0, out := "" }
      = .ret (ERROR, registry []) { allocs := [], live := 0, out := "" } ∧
    grades_add_student (registry []) "A" 1 { allocs := [true, false], live := 0, out := "" }
      = .ret (ERROR, registry []) { allocs := [], live := 0, out := "" } ∧
    grades_add_student (registry []) "A" 1
        { allocs := [true, true, false], live := 0, out := "" }
      = .ret (ERROR, registry []) { allocs := [], live := 0, out := "" } ∧
    grades_add_student (registry []) "A" 1
        { allocs := [true, true, true, false], live := 0, out := "" }
      = .ret (ERROR, registry []) { allocs := [], live := 0, out := "" } ∧
    grades_add_student (registry []) "A" 1
        { allocs := [true, true, true, true, false], live := 0, out := "" }
      = .ret (ERROR, registry []) { allocs := [], live := 1, out := "" } ∧
    grades_add_student (registry []) "A" 1
        { allocs := [true, true, true, true, true, false], live := 0, out := "" }
      = .ret (0, registry [student.mk "A" 1 none]) { allocs := [], live := 2, out := "" } := by
  decide

/-! ## The `NULL` registry -/

/-- C17. On the `NULL` registry `grades_add_student` and `grades_add_grade` return `ERROR`
and change nothing, but `grades_calc_avg`, `grades_print_student` and `grades_print_all`
read `grades->students_list` before they compare `grades` with `NULL`: they do not
return, the run stops at the null pointer. -/
theorem null_registry_behaviour (name : String) (id : Int) (grade : Int) (w : World) :
    grades_add_student none name id w = .ret (ERROR, none) w ∧
    grades_add_grade none name id grade w = .ret (ERROR, none) w ∧
    grades_calc_avg none id w = .fault ∧
    grades_print_student none id w = .fault ∧
    grades_print_all none w = .fault :=
  ⟨rfl, rfl, rfl, rfl, rfl⟩

/-! ## Result values of the mutators -/

/-- C18, the claim as stated fails: on the registry holding student 1 with the course
Math, `grades_add_grade` returns the same 1 for an out-of-range grade, for an unknown id
and for a duplicate course name, and `grades_add_student` returns the same 1 for a
duplicate id and for a failed allocation. -/
theorem error_kinds_counterexample :
    (grades_add_grade (registry [student.mk "A" 1 (some [course.mk "Math" 90])]) "CS" 1 101
        { allocs := [], live := 0, out := "" }
      = .ret (1, registry [student.mk "A" 1 (some [course.mk "Math" 90])])
          { allocs := [], live := 0, out := "" } ∧
    grades_add_grade (registry [student.mk "A" 1 (some [course.mk "Math" 90])]) "CS" 2 50
        { allocs := [], live := 0, out := "" }
      = .ret (1, registry [student.mk "A" 1 (some [course.mk "Math" 90])])
          { allocs := [], live := 0, out := "" } ∧
    grades_add_grade (registry [student.mk "A" 1 (some [course.mk "Math" 90])]) "Math" 1 50
        { allocs := [], live := 0, out := "" }
      = .ret (1, registry [student.mk "A" 1 (some [course.mk "Math" 90])])
          { allocs := [], live := 0, out := "" }) ∧
    (grades_add_student (registry [student.mk "A" 1 (some [course.mk "Math" 90])]) "B" 1
        { allocs := [], live := 0, out := "" }
      = .ret (1, registry [student.mk "A" 1 (some [course.mk "Math" 90])])
          { allocs := [], live := 0, out := "" } ∧
    grades_add_student (registry [student.mk "A" 1 (some [course.mk "Math" 90])]) "B" 2
        { allocs := [false], live := 0, out := "" }
      = .ret (1, registry [student.mk "A" 1 (some [course.mk "Math" 90])])
          { allocs := [], live := 0, out := "" }) := by
  decide

/-- C18, amended. The result of `grades_add_grade` and of `grades_add_student` tells
success from failure only: whenever either returns, on any registry and in any world, its
result is 0 or the one value `ERROR` (1), whichever precondition or allocation failed. -/
theorem error_result_single_value (g : Option grades) (name : String) (id : Int)
    (grade : Int) (w : World) :
    (∀ (rc : Int) (g1 : Option grades) (w1 : World),
      grades_add_grade g name id grade w = .ret (rc, g1) w1 → rc = 0 ∨ rc = ERROR) ∧
    (∀ (rc : Int) (g1 : Option grades) (w1 : World),
      grades_add_student g name id w = .ret (rc, g1) w1 → rc = 0 ∨ rc = ERROR) := by
  constructor
  · intro rc g1 w1 h
    match g with
    | none =>
      rw [grades_add_grade_null] at h
      exact Or.inr (congrArg Prod.fst (ret_inj h).1).symm
    | some ⟨none⟩ =>
      by_cases hgr : grade < 0 ∨ grade > MAX_GRADE
      · simp [grades_add_grade, hgr, run_pure] at h
        exact Or.inr h.1.1.symm
      · simp [grades_add_grade, hgr, run_bind, list_find_id, list_begin, deref_null] at h
    | some ⟨some l⟩ =>
      rw [show (some ⟨some l⟩ : Option grades) = registry l from rfl] at h
      rcases grades_add_grade_cases l name id grade w with ⟨w2, h2⟩ | h2 | h2
      · rw [h2] at h
        exact Or.inr (congrArg Prod.fst (ret_inj h).1).symm
      · rw [h2] at h
        cases h
      · obtain ⟨pre, s, post, cs, w2, _, _, _, _, _, _, _, h2⟩ := h2
        rw [h2] at h
        exact Or.inl (congrArg Prod.fst (ret_inj h).1).symm
  · intro rc g1 w1 h
    match g with
    | none =>
      rw [grades_add_student_null] at h
      exact Or.inr (congrArg Prod.fst (ret_inj h).1).symm
    | some ⟨none⟩ =>
      simp [grades_add_student, run_bind, list_find_id, list_begin, deref_null] at h
    | some ⟨some l⟩ =>
      rw [show (some ⟨some l⟩ : Option grades) = registry l from rfl] at h
      rcases grades_add_student_cases l name id w with ⟨w2, h2⟩ | ⟨sc, w2, _, _, h2⟩
      · rw [h2] at h
        exact Or.inr (congrArg Prod.fst (ret_inj h).1).symm
      · rw [h2] at h
        exact Or.inl (congrArg Prod.fst (ret_inj h).1).symm

theorem error_result_single_value_witness :
    (grades_add_grade (registry [student.mk "A" 1 (some [course.mk "Math" 90])]) "Math" 1 50
        { allocs := [], live := 0, out := "" }
      = .ret (1, registry [student.mk "A" 1 (some [course.mk "Math" 90])])
          { allocs := [], live := 0, out := "" } ∧ ((1 : Int) = 0 ∨ (1 : Int) = ERROR)) ∧
    (grades_add_student (registry [student.mk "A" 1 (some [course.mk "Math" 90])]) "B" 2
        { allocs := [false], live := 0, out := "" }
      = .ret (1, registry [student.mk "A" 1 (some [course.mk "Math" 90])])
          { allocs := [], live := 0, out := "" } ∧ ((1 : Int) = 0 ∨ (1 : Int) = ERROR)) :=
  ⟨⟨by decide,
      (error_result_single_value
        (registry [student.mk "A" 1 (some [course.mk "Math" 90])]) "Math" 1 50
        { allocs := [], live := 0, out := "" }).1 1
        (registry [student.mk "A" 1 (some [course.mk "Math" 90])])
        { allocs := [], live := 0, out := "" } (by decide)⟩,
    by decide,
    (error_result_single_value
      (registry [student.mk "A" 1 (some [course.mk "Math" 90])]) "B" 2 50
      { allocs := [false], live := 0, out := "" }).2 1
      (registry [student.mk "A" 1 (some [course.mk "Math" 90])])
      { allocs := [], live := 0, out := "" } (by decide)⟩

/-! ## Bounds on single-precision rounding -/

theorem floor_int_add (n : ℤ) (r : ℚ) (h0 : 0 ≤ r) (h1 : r < 1) : ⌊(n : ℚ) + r⌋ = n := by
  rw [Int.floor_eq_iff]
  constructor <;> linarith

theorem round_even_low (n : ℤ) (r : ℚ) (h0 : 0 ≤ r) (h1 : r < 1 / 2) :
    round_even ((n : ℚ) + r) = n := by
  have hf := floor_int_add n r h0 (by linarith)
  simp only [round_even, hf]
  rw [if_pos (by linarith)]

theorem round_even_high (n : ℤ) (r : ℚ) (h0 : 1 / 2 < r) (h1 : r < 1) :
    round_even ((n : ℚ) + r) = n + 1 := by
  have hf := floor_int_add n r (by linarith) h1
  simp only [round_even, hf]
  rw [if_neg (by linarith), if_pos (by linarith)]

theorem round_even_tie (n : ℤ) (heven : n % 2 = 0) :
    round_even ((n : ℚ) + 1 / 2) = n := by
  have hf := floor_int_add n (1 / 2) (by norm_num) (by norm_num)
  have hf2 : ⌊(n : ℚ) + 1 / 2⌋ = n := by simpa using hf
  simp only [round_even, hf2]
  rw [if_neg (by linarith), if_neg (by linarith), if_pos heven]

theorem floor_le_round_even (q : ℚ) : ⌊q⌋ ≤ round_even q := by
  unfold round_even
  split_ifs <;> omega

theorem round_even_le_floor_succ (q : ℚ) : round_even q ≤ ⌊q⌋ + 1 := by
  unfold round_even
  split_ifs <;> omega

theorem round_even_nonneg (q : ℚ) (h : 0 ≤ q) : 0 ≤ round_even q :=
  le_trans (Int.floor_nonneg.mpr h) (floor_le_round_even q)

theorem round_even_le_int (q : ℚ) (N : ℤ) (h : q ≤ N) : round_even q ≤ N := by
  by_cases hq : q = N
  · rw [hq, round_even_intCast]
  · have hlt : q < N := lt_of_le_of_ne h hq
    have hfl : ⌊q⌋ < N := Int.floor_lt.mpr hlt
    have := round_even_le_floor_succ q
    omega

theorem f32_nonneg (x : ℚ) (h : 0 ≤ x) : 0 ≤ f32 x := by
  unfold f32
  split_ifs with h0
  · exact le_refl 0
  · have hu : (0 : ℚ) < (2 : ℚ) ^ (Int.log 2 |x| - 23) := zpow_pos (by norm_num) _
    have hr := round_even_nonneg (x / (2 : ℚ) ^ (Int.log 2 |x| - 23)) (div_nonneg h hu.le)
    exact mul_nonneg (by exact_mod_cast hr) hu.le

theorem f32_le_hundred (x : ℚ) (h0 : 0 ≤ x) (h : x ≤ 100) : f32 x ≤ 100 := by
  unfold f32
  split_ifs with hx0
  · norm_num
  · have hpos : 0 < x := lt_of_le_of_ne h0 (Ne.symm hx0)
    rw [abs_of_pos hpos]
    have hlow : (2 : ℚ) ^ Int.log 2 x ≤ x := by
      simpa using Int.zpow_log_le_self (b := 2) (by norm_num) hpos
    have hup : x < (2 : ℚ) ^ (Int.log 2 x + 1) := by
      simpa using Int.lt_zpow_succ_log_self (b := 2) (by norm_num) x
    have he : Int.log 2 x < 7 := by
      have : (2 : ℚ) ^ Int.log 2 x < (2 : ℚ) ^ (7 : ℤ) :=
        lt_of_le_of_lt hlow (lt_of_le_of_lt h (by norm_num))
      exact (zpow_lt_zpow_iff_right₀ (by norm_num : (1 : ℚ) < 2)).mp this
    generalize Int.log 2 x = e at hlow hup he
    have hu : (0 : ℚ) < (2 : ℚ) ^ (e - 23) := zpow_pos (by norm_num) _
    have h2 : (2 : ℚ) ≠ 0 := by norm_num
    by_cases h6 : e = 6
    · subst h6
      have hN : x / (2 : ℚ) ^ ((6 : ℤ) - 23) ≤ ((13107200 : ℤ) : ℚ) := by
        rw [div_le_iff₀ hu]
        have : ((13107200 : ℤ) : ℚ) * (2 : ℚ) ^ ((6 : ℤ) - 23) = 100 := by norm_num
        rw [this]
        exact h
      have hr := round_even_le_int _ _ hN
      have hr2 : ((round_even (x / (2 : ℚ) ^ ((6 : ℤ) - 23)) : ℤ) : ℚ) ≤ 13107200 := by
        exact_mod_cast hr
      calc ((round_even (x / (2 : ℚ) ^ ((6 : ℤ) - 23)) : ℤ) : ℚ) * (2 : ℚ) ^ ((6 : ℤ) - 23)
          ≤ 13107200 * (2 : ℚ) ^ ((6 : ℤ) - 23) := mul_le_mul_of_nonneg_right hr2 hu.le
        _ = 100 := by norm_num
    · have he5 : e + 1 ≤ 6 := by omega
      have hN : x / (2 : ℚ) ^ (e - 23) ≤ ((2 ^ 24 : ℤ) : ℚ) := by
        rw [div_le_iff₀ hu]
        have : ((2 ^ 24 : ℤ) : ℚ) * (2 : ℚ) ^ (e - 23) = (2 : ℚ) ^ (e + 1) := by
          rw [show e + 1 = 24 + (e - 23) by ring, zpow_add₀ h2]
          norm_num
        rw [this]
        exact hup.le
      have hr := round_even_le_int _ _ hN
      have hr2 : ((round_even (x / (2 : ℚ) ^ (e - 23)) : ℤ) : ℚ) ≤ ((2 ^ 24 : ℤ) : ℚ) := by
        exact_mod_cast hr
      calc ((round_even (x / (2 : ℚ) ^ (e - 23)) : ℤ) : ℚ) * (2 : ℚ) ^ (e - 23)
          ≤ ((2 ^ 24 : ℤ) : ℚ) * (2 : ℚ) ^ (e - 23) := mul_le_mul_of_nonneg_right hr2 hu.le
        _ = (2 : ℚ) ^ (e + 1) := by
          rw [show e + 1 = 24 + (e - 23) by ring, zpow_add₀ h2]
          norm_num
        _ ≤ (2 : ℚ) ^ (6 : ℤ) := (zpow_le_zpow_iff_right₀ (by norm_num : (1 : ℚ) < 2)).mpr he5
        _ ≤ 100 := by norm_num

/-! ## The value `grades_calc_avg` returns -/

/-- The ways a call of `grades_calc_avg` on a valid registry can end: the error result -1
with `NULL` in `out` (unknown id, or no memory for the copy of the name); a fault (the
student's course container is missing); or success with the student's name in `out` and
0 for an empty course list, else the rounded quotient of the accumulated grades by the
number of courses. -/
theorem grades_calc_avg_cases (l : List student) (id : Int) (w : World) :
    (∃ w1, grades_calc_avg (registry l) id w = .ret (-1, none) w1)
    ∨ grades_calc_avg (registry l) id w = .fault
    ∨ (∃ pre s post cs w1, l = pre ++ s :: post ∧ (∀ t ∈ pre, t.id ≠ id) ∧ s.id = id
        ∧ s.student_courses = some cs
        ∧ grades_calc_avg (registry l) id w
          = .ret (if cs = [] then 0
              else f32 (cs.foldl (fun a c => f32 (a + f32 (c.grade : ℚ))) 0
                / f32 (cs.length : ℚ)), some s.name) w1) := by
  obtain ⟨a, n, o⟩ := w
  cases hf : first_at (fun s : student => s.id = id) 0 l with
  | none =>
    exact Or.inl ⟨⟨a, n, o⟩,
      grades_calc_avg_of_unknown l id _ ((first_at_eq_none _ 0 l).mp hf)⟩
  | some it =>
    obtain ⟨pre, hl, _, hid, hpre⟩ := first_at_some _ 0 l it hf
    obtain ⟨b1, hm1⟩ := malloc_cases a n o
    cases b1 with
    | false =>
      exact Or.inl ⟨⟨a.tail, n, o⟩, by
        simp [grades_calc_avg, registry, run_bind, list_find_id_eq, hf, run_pure, list_get,
          hm1, free_eq, f32_FAIL]⟩
    | true =>
      cases hc : it.elem.student_courses with
      | none =>
        exact Or.inr (Or.inl (by
          simp [grades_calc_avg, registry, run_bind, list_find_id_eq, hf, run_pure,
            list_get, hm1, hc, list_begin, deref_null]))
      | some cs =>
        refine Or.inr (Or.inr ⟨pre, it.elem, it.after, cs, ⟨a.tail, n + 1, o⟩, hl, hpre,
          hid, hc, ?_⟩)
        cases cs with
        | nil =>
          simp [grades_calc_avg, registry, run_bind, list_find_id_eq, hf, run_pure,
            list_get, hm1, hc, list_begin, list_size]
        | cons c cs =>
          have hloop := grades_calc_avg_loop_eq (c :: cs) 0 0
          simp only [cursor_at_cons, List.length_cons] at hloop
          simp [grades_calc_avg, registry, run_bind, list_find_id_eq, hf, run_pure,
            list_get, hm1, hc, list_begin, list_size]
          rw [hloop]
          simp

theorem avg_fold_nonneg (cs : List course) (acc : ℚ) (hacc : 0 ≤ acc)
    (hg : ∀ c ∈ cs, 0 ≤ c.grade) :
    0 ≤ cs.foldl (fun a c => f32 (a + f32 (c.grade : ℚ))) acc := by
  induction cs generalizing acc with
  | nil => simpa using hacc
  | cons c cs ih =>
    have hc : (0 : ℚ) ≤ (c.grade : ℚ) := by exact_mod_cast hg c (by simp)
    exact ih _ (f32_nonneg _ (add_nonneg hacc (f32_nonneg _ hc)))
      (fun d hd => hg d (by simp [hd]))

theorem grades_sum_bounds (cs : List course) (hg : ∀ c ∈ cs, 0 ≤ c.grade ∧ c.grade ≤ 100) :
    0 ≤ (cs.map course.grade).sum ∧ (cs.map course.grade).sum ≤ 100 * (cs.length : ℤ) := by
  induction cs with
  | nil => simp
  | cons c cs ih =>
    obtain ⟨h1, h2⟩ := ih (fun d hd => hg d (by simp [hd]))
    obtain ⟨h3, h4⟩ := hg c (by simp)
    simp only [List.map_cons, List.sum_cons, List.length_cons, Nat.cast_add, Nat.cast_one]
    constructor <;> linarith

theorem grades_calc_avg_value_bounds (cs : List course)
    (hg : ∀ c ∈ cs, 0 ≤ c.grade ∧ c.grade ≤ 100) :
    0 ≤ (if cs = [] then (0 : ℚ)
        else f32 (cs.foldl (fun a c => f32 (a + f32 (c.grade : ℚ))) 0 / f32 (cs.length : ℚ)))
    ∧ (100 * cs.length < 2 ^ 24 →
      (if cs = [] then (0 : ℚ)
        else f32 (cs.foldl (fun a c => f32 (a + f32 (c.grade : ℚ))) 0 / f32 (cs.length : ℚ)))
      ≤ 100) := by
  by_cases hnil : cs = []
  · simp [hnil]
  · simp only [if_neg hnil]
    constructor
    · exact f32_nonneg _ (div_nonneg
        (avg_fold_nonneg cs 0 (le_refl 0) (fun c hc => (hg c hc).1))
        (f32_nonneg _ (by positivity)))
    · intro hlen
      have hfold := avg_fold_exact cs 0 hg (by simpa using hlen)
      simp only [Nat.cast_zero, zero_add] at hfold
      rw [hfold, f32_natCast cs.length (by omega)]
      obtain ⟨hs0, hs1⟩ := grades_sum_bounds cs hg
      have hlenpos : (0 : ℚ) < (cs.length : ℚ) := by
        have : 0 < cs.length := List.length_pos.mpr hnil
        exact_mod_cast this
      have hs0q : (0 : ℚ) ≤ (((cs.map course.grade).sum : ℤ) : ℚ) := by exact_mod_cast hs0
      have hs1q : (((cs.map course.grade).sum : ℤ) : ℚ) ≤ 100 * (cs.length : ℚ) := by
        exact_mod_cast hs1
      exact f32_le_hundred _ (div_nonneg hs0q hlenpos.le) ((div_le_iff₀ hlenpos).mpr hs1q)

/-- C20, amended. In every registry reachable from `grades_init` by calls of
`grades_add_student` and `grades_add_grade`, whenever `grades_calc_avg` returns: it
returns -1 if and only if it failed (`out` is `NULL`); a successful call returns a value
that is at least 0, hence never -1; and the value is at most 100 when the student with
the id has at most 167772 courses. -/
theorem grades_calc_avg_sentinel (l : List student) (id : Int) (w w1 : World) (v : ℚ)
    (out : Option String) (h : reachable (registry l))
    (hrun : grades_calc_avg (registry l) id w = .ret (v, out) w1) :
    (v = -1 ↔ out = none) ∧ (out ≠ none → 0 ≤ v) ∧
    (out ≠ none →
      (∀ s ∈ l, s.id = id → ∀ cs, s.student_courses = some cs → 100 * cs.length < 2 ^ 24) →
      v ≤ 100) := by
  have hinv : ∀ s ∈ l, ∀ cs, s.student_courses = some cs →
      ∀ c ∈ cs, 0 ≤ c.grade ∧ c.grade ≤ 100 := by
    rcases reachable_invariant _ h with hnull | ⟨l1, hl, _, hcs⟩
    · cases hnull
    · have hl1 : l = l1 := by
        simpa [registry] using hl
      subst hl1
      exact fun s hs cs hc => (hcs s hs cs hc).2
  rcases grades_calc_avg_cases l id w with ⟨w2, h2⟩ | h2 | h2
  · rw [h2] at hrun
    obtain ⟨hval, _⟩ := ret_inj hrun
    have hv : v = -1 := (congrArg Prod.fst hval).symm
    have ho : out = none := (congrArg Prod.snd hval).symm
    subst hv ho
    simp
  · rw [h2] at hrun
    cases hrun
  · obtain ⟨pre, s, post, cs, w2, hl, _, hid, hc, h2⟩ := h2
    rw [h2] at hrun
    obtain ⟨hval, _⟩ := ret_inj hrun
    have hv := (congrArg Prod.fst hval).symm
    have ho : out = some s.name := (congrArg Prod.snd hval).symm
    simp only at hv
    have hmem : s ∈ l := by rw [hl]; simp
    obtain ⟨hlo, hhi⟩ := grades_calc_avg_value_bounds cs (hinv s hmem cs hc)
    rw [← hv] at hlo hhi
    refine ⟨?_, fun _ => hlo, fun _ hlen => hhi (hlen s hmem hid cs hc)⟩
    constructor
    · intro hneg
      rw [hneg] at hlo
      norm_num at hlo
    · intro hnone
      rw [ho] at hnone
      cases hnone

/-! ## Accumulating very many grades in single precision -/

theorem add_hundred_eq (a : ℚ) : add_hundred a = f32 (a + 100) := by
  have h := f32_intCast 100 (by norm_num)
  unfold add_hundred
  rw [h]
  norm_num

theorem add_hundred_exact (k : ℕ) (hk : k + 1 ≤ 671088) :
    add_hundred (100 * (k : ℚ)) = 100 * ((k + 1 : ℕ) : ℚ) := by
  rw [add_hundred_eq]
  have h := f32_of_dyadic (25 * ((k : ℤ) + 1)) 2 (by
    rw [abs_of_nonneg (by positivity)]
    have : ((k : ℤ) + 1) ≤ 671088 := by exact_mod_cast hk
    omega)
  have he : (((25 * ((k : ℤ) + 1) : ℤ)) : ℚ) * (2 : ℚ) ^ (2 : ℤ) = 100 * (k : ℚ) + 100 := by
    push_cast
    norm_num
    ring
  rw [he] at h
  rw [h]
  push_cast
  ring

theorem add_hundred_mid (p : ℕ) (h1 : 2 ^ 26 ≤ 32 * p + 100) (h2 : 32 * p + 100 < 2 ^ 29) :
    add_hundred (32 * (p : ℚ)) = 32 * (p : ℚ) + 96 := by
  rw [add_hundred_eq]
  have h1q : ((2 ^ 26 : ℕ) : ℚ) ≤ ((32 * p + 100 : ℕ) : ℚ) := by exact_mod_cast h1
  have h2q : ((32 * p + 100 : ℕ) : ℚ) < ((2 ^ 29 : ℕ) : ℚ) := by exact_mod_cast h2
  push_cast at h1q h2q
  have hpos : (0 : ℚ) < 32 * (p : ℚ) + 100 := by positivity
  have hne : 32 * (p : ℚ) + 100 ≠ 0 := ne_of_gt hpos
  rw [f32, if_neg hne, abs_of_pos hpos]
  by_cases ha : 32 * (p : ℚ) + 100 < 2 ^ 27
  · have hlog : Int.log 2 (32 * (p : ℚ) + 100) = 26 :=
      log_two_eq _ _ hpos (by norm_num; linarith) (by norm_num; linarith)
    have hdiv : (32 * (p : ℚ) + 100) / (2 : ℚ) ^ ((26 : ℤ) - 23)
        = ((4 * (p : ℤ) + 12 : ℤ) : ℚ) + 1 / 2 := by
      push_cast
      norm_num
      ring
    rw [hlog, hdiv, round_even_tie _ (by omega)]
    push_cast
    norm_num
    ring
  · by_cases hb : 32 * (p : ℚ) + 100 < 2 ^ 28
    · have hlog : Int.log 2 (32 * (p : ℚ) + 100) = 27 :=
        log_two_eq _ _ hpos (by norm_num; linarith) (by norm_num; linarith)
      have hdiv : (32 * (p : ℚ) + 100) / (2 : ℚ) ^ ((27 : ℤ) - 23)
          = ((2 * (p : ℤ) + 6 : ℤ) : ℚ) + 1 / 4 := by
        push_cast
        norm_num
        ring
      rw [hlog, hdiv, round_even_low _ _ (by norm_num) (by norm_num)]
      push_cast
      norm_num
      ring
    · have hlog : Int.log 2 (32 * (p : ℚ) + 100) = 28 :=
        log_two_eq _ _ hpos (by norm_num; linarith) (by norm_num; linarith)
      have hdiv : (32 * (p : ℚ) + 100) / (2 : ℚ) ^ ((28 : ℤ) - 23)
          = (((p : ℤ) + 3 : ℤ) : ℚ) + 1 / 8 := by
        push_cast
        norm_num
        ring
      rw [hlog, hdiv, round_even_low _ _ (by norm_num) (by norm_num)]
      push_cast
      norm_num
      ring

theorem add_hundred_high (q : ℕ) (h1 : 2 ^ 29 ≤ 64 * q + 100) (h2 : 64 * q + 100 < 2 ^ 30) :
    add_hundred (64 * (q : ℚ)) = 64 * (q : ℚ) + 128 := by
  rw [add_hundred_eq]
  have h1q : ((2 ^ 29 : ℕ) : ℚ) ≤ ((64 * q + 100 : ℕ) : ℚ) := by exact_mod_cast h1
  have h2q : ((64 * q + 100 : ℕ) : ℚ) < ((2 ^ 30 : ℕ) : ℚ) := by exact_mod_cast h2
  push_cast at h1q h2q
  have hpos : (0 : ℚ) < 64 * (q : ℚ) + 100 := by positivity
  have hne : 64 * (q : ℚ) + 100 ≠ 0 := ne_of_gt hpos
  rw [f32, if_neg hne, abs_of_pos hpos]
  have hlog : Int.log 2 (64 * (q : ℚ) + 100) = 29 :=
    log_two_eq _ _ hpos (by norm_num; linarith) (by norm_num; linarith)
  have hdiv : (64 * (q : ℚ) + 100) / (2 : ℚ) ^ ((29 : ℤ) - 23)
      = (((q : ℤ) + 1 : ℤ) : ℚ) + 9 / 16 := by
    push_cast
    norm_num
    ring
  rw [hlog, hdiv, round_even_high _ _ (by norm_num) (by norm_num)]
  push_cast
  norm_num
  ring

theorem add_hundred_first_phase (k : ℕ) (hk : k ≤ 671088) :
    add_hundred^[k] 0 = 100 * (k : ℚ) := by
  induction k with
  | zero => simp
  | succ k ih =>
    rw [Function.iterate_succ_apply', ih (by omega), add_hundred_exact k hk]

theorem add_hundred_second_phase (j : ℕ) (hj : j ≤ 4893355) :
    add_hundred^[j] 67108800 = 67108800 + 96 * (j : ℚ) := by
  induction j with
  | zero => simp
  | succ j ih =>
    rw [Function.iterate_succ_apply', ih (by omega)]
    have h := add_hundred_mid (2097150 + 3 * j) (by norm_num; omega) (by omega)
    have he : (32 : ℚ) * ((2097150 + 3 * j : ℕ) : ℚ) = 67108800 + 96 * (j : ℚ) := by
      push_cast
      ring
    rw [he] at h
    rw [h]
    push_cast
    ring

theorem add_hundred_entry : add_hundred 536870880 = 536870976 := by
  rw [add_hundred_eq]
  have hsum : (536870880 : ℚ) + 100 = 536870980 := by norm_num
  have hlog : Int.log 2 (536870980 : ℚ) = 29 :=
    log_two_eq _ _ (by norm_num) (by norm_num) (by norm_num)
  have hdiv : (536870980 : ℚ) / (2 : ℚ) ^ ((29 : ℤ) - 23)
      = ((8388609 : ℤ) : ℚ) + 1 / 16 := by
    norm_num
  rw [hsum, f32, if_neg (by norm_num), abs_of_pos (by norm_num), hlog, hdiv,
    round_even_low _ _ (by norm_num) (by norm_num)]
  norm_num

theorem add_hundred_third_phase (j : ℕ) (hj : j ≤ 1435556) :
    add_hundred^[j] 536870976 = 536870976 + 128 * (j : ℚ) := by
  induction j with
  | zero => simp
  | succ j ih =>
    rw [Function.iterate_succ_apply', ih (by omega)]
    have h := add_hundred_high (8388609 + 2 * j) (by omega) (by omega)
    have he : (64 : ℚ) * ((8388609 + 2 * j : ℕ) : ℚ) = 536870976 + 128 * (j : ℚ) := by
      push_cast
      ring
    rw [he] at h
    rw [h]
    push_cast
    ring

theorem add_hundred_seven_million : add_hundred^[7000000] 0 = 720622144 := by
  have hsplit : (7000000 : ℕ) = 1435556 + (1 + (4893355 + 671088)) := by norm_num
  rw [hsplit, Function.iterate_add_apply, Function.iterate_add_apply,
    Function.iterate_add_apply, add_hundred_first_phase 671088 (le_refl _)]
  have h1 : (100 : ℚ) * ((671088 : ℕ) : ℚ) = 67108800 := by norm_num
  rw [h1, add_hundred_second_phase 4893355 (le_refl _)]
  have h2 : (67108800 : ℚ) + 96 * ((4893355 : ℕ) : ℚ) = 536870880 := by norm_num
  rw [h2, Function.iterate_one, add_hundred_entry,
    add_hundred_third_phase 1435556 (le_refl _)]
  norm_num

theorem f32_overshoot : f32 (720622144 / 7000000) = 13493341 / 131072 := by
  have hlog : Int.log 2 (720622144 / 7000000 : ℚ) = 6 :=
    log_two_eq _ _ (by norm_num) (by norm_num) (by norm_num)
  have hdiv : (720622144 / 7000000 : ℚ) / (2 : ℚ) ^ ((6 : ℤ) - 23)
      = ((13493340 : ℤ) : ℚ) + 88412 / 109375 := by
    norm_num
  rw [f32, if_neg (by norm_num), abs_of_pos (by norm_num), hlog, hdiv,
    round_even_high _ _ (by norm_num) (by norm_num)]
  norm_num

theorem many_courses_length (n : ℕ) : (many_courses n).length = n := by
  induction n with
  | zero => rfl
  | succ n ih => simp [many_courses, ih]

theorem many_courses_grade (n : ℕ) : ∀ c ∈ many_courses n, c.grade = 100 := by
  induction n with
  | zero => simp [many_courses]
  | succ n ih =>
    intro c hc
    rcases List.mem_append.mp hc with hc | hc
    · exact ih c hc
    · simp only [List.mem_singleton] at hc
      rw [hc]

theorem many_courses_name_length (n : ℕ) :
    ∀ c ∈ many_courses n, c.course_name.length < n := by
  induction n with
  | zero => simp [many_courses]
  | succ n ih =>
    intro c hc
    rcases List.mem_append.mp hc with hc | hc
    · exact Nat.lt_succ_of_lt (ih c hc)
    · simp only [List.mem_singleton] at hc
      rw [hc]
      simp [String.length]

theorem reachable_many_courses (n : ℕ) :
    reachable (registry [student.mk "A" 1 (some (many_courses n))]) := by
  induction n with
  | zero =>
    have h0 : reachable (registry []) :=
      reachable.init { allocs := [], live := 0, out := "" }
        { allocs := [], live := 2, out := "" } _ (by decide)
    exact reachable.add_student _ _ "A" 1 0 { allocs := [], live := 2, out := "" }
      { allocs := [], live := 5, out := "" } h0 (by decide)
  | succ n ih =>
    have hnew : ∀ c ∈ many_courses n,
        c.course_name ≠ String.mk (List.replicate n 'c') := by
      intro c hc heq
      have hlen := many_courses_name_length n c hc
      rw [heq] at hlen
      simp [String.length] at hlen
    have hrun := grades_add_grade_of_succeed [] (student.mk "A" 1 (some (many_courses n))) []
      (many_courses n) (String.mk (List.replicate n 'c')) 1 100
      { allocs := [], live := 0, out := "" } (by simp) rfl rfl hnew (by norm_num)
      (by norm_num) (by intro b hb; simp at hb)
    exact reachable.add_grade _ _ _ 1 100 0 _ _ ih hrun

theorem avg_fold_hundreds (cs : List course) (acc : ℚ) (hg : ∀ c ∈ cs, c.grade = 100) :
    cs.foldl (fun a c => f32 (a + f32 (c.grade : ℚ))) acc = add_hundred^[cs.length] acc := by
  induction cs generalizing acc with
  | nil => rfl
  | cons c cs ih =>
    rw [List.foldl_cons, List.length_cons, Function.iterate_succ_apply,
      ih _ (fun d hd => hg d (by simp [hd])), hg c (by simp)]
    rfl

/-- C20, the claim as stated fails. The registry in which student A has 7000000 courses,
each with grade 100, is reachable through the interface, and on it `grades_calc_avg`
succeeds with 13493341/131072, about 102.946, which is above 100: from 2^26 on the
`float` accumulator moves in steps of 96 and from 2^29 on in steps of 128. -/
theorem grades_calc_avg_sentinel_counterexample :
    reachable (registry [student.mk "A" 1 (some (many_courses 7000000))]) ∧
    grades_calc_avg (registry [student.mk "A" 1 (some (many_courses 7000000))]) 1
        { allocs := [], live := 0, out := "" }
      = .ret (13493341 / 131072, some "A") { allocs := [], live := 1, out := "" } ∧
    (100 : ℚ) < 13493341 / 131072 := by
  refine ⟨reachable_many_courses 7000000, ?_, by norm_num⟩
  have hlen := many_courses_length 7000000
  have hgr := many_courses_grade 7000000
  generalize many_courses 7000000 = cs at hlen hgr
  cases cs with
  | nil => simp at hlen
  | cons c cs =>
    have hrun := grades_calc_avg_of_courses [] (student.mk "A" 1 (some (c :: cs))) [] c cs 1
      { allocs := [], live := 0, out := "" } (by simp) rfl rfl (by intro b hb; simp at hb)
    rw [avg_fold_hundreds (c :: cs) 0 hgr, hlen, add_hundred_seven_million,
      f32_natCast 7000000 (by norm_num)] at hrun
    have hv : f32 ((720622144 : ℚ) / ((7000000 : ℕ) : ℚ)) = 13493341 / 131072 := by
      rw [← f32_overshoot]
      norm_num
    rw [hv] at hrun
    exact hrun

theorem grades_calc_avg_sample :
    grades_calc_avg
        (registry [student.mk "A" 1 (some [course.mk "Math" 90, course.mk "CS" 80]),
          student.mk "B" 2 (some [])]) 1 { allocs := [], live := 12, out := "" }
      = .ret (85, some "A") { allocs := [], live := 13, out := "" } := by
  have h := grades_calc_avg_of_bounded []
    (student.mk "A" 1 (some [course.mk "Math" 90, course.mk "CS" 80]))
    [student.mk "B" 2 (some [])] [course.mk "Math" 90, course.mk "CS" 80] 1
    { allocs := [], live := 12, out := "" } (by decide) rfl rfl (by decide) (by decide)
    (by decide) (by decide)
  have hv : f32 ((((List.map course.grade [course.mk "Math" 90, course.mk "CS" 80]).sum : ℤ)
      : ℚ) / (([course.mk "Math" 90, course.mk "CS" 80].length : ℕ) : ℚ)) = 85 := by
    have h85 := f32_intCast 85 (by norm_num)
    norm_num at h85 ⊢
    exact h85
  rw [hv] at h
  exact h

theorem grades_calc_avg_sentinel_witness :
    reachable (registry [student.mk "A" 1 (some [course.mk "Math" 90, course.mk "CS" 80]),
      student.mk "B" 2 (some [])]) ∧
    grades_calc_avg
        (registry [student.mk "A" 1 (some [course.mk "Math" 90, course.mk "CS" 80]),
          student.mk "B" 2 (some [])]) 1 { allocs := [], live := 12, out := "" }
      = .ret (85, some "A") { allocs := [], live := 13, out := "" } ∧
    (((85 : ℚ) = -1 ↔ some "A" = none) ∧ (some "A" ≠ none → (0 : ℚ) ≤ 85) ∧
      (some "A" ≠ none →
        (∀ s ∈ [student.mk "A" 1 (some [course.mk "Math" 90, course.mk "CS" 80]),
            student.mk "B" 2 (some [])],
          s.id = 1 → ∀ cs, s.student_courses = some cs → 100 * cs.length < 2 ^ 24) →
        (85 : ℚ) ≤ 100)) :=
  ⟨reachable_sample, grades_calc_avg_sample,
    grades_calc_avg_sentinel _ 1 { allocs := [], live := 12, out := "" }
      { allocs := [], live := 13, out := "" } 85 (some "A") reachable_sample
      grades_calc_avg_sample⟩

end GradesADT
